import Mathlib

/-!
# cf-mariadb-backup-plugin: a shallow embedding of `main.go` and `models/model.go`

The plugin talks to the world only through the host connection
(`plugin.CliConnection`).  Every call made on the connection is recorded,
together with what the host answered, in a trace; the host itself is a
function of the trace so far, so that stateful hosts are covered.

Go values are rendered as follows.

* `error` is `Option String`: `none` is `nil`, `some s` an error whose
  `Error()` is `s`.
* a pointer field (`*Metadata`, `*BackupEntity`, `*string`) is an `Option`.
* `time.Time` is the instant as an integer; `Before` is `<` on instants.
* `os.Exit`, a run-time panic and a loop that has not finished within its
  fuel are outcomes of a computation next to a normal return.
* `encoding/json`, `cf/flags` and `fatih/color` are libraries outside the
  repository; what the code uses of them is taken as a parameter (`Deps`).
* writes to standard output other than the banner of `exit1` are left out.
-/

namespace CfMariadbBackup

/-! ## models/model.go -/

/-- Instants of `time.Time`. -/
abbrev Time := Int

/-- Go `error`: `none` is `nil`. -/
abbrev error := Option String

structure RestoreEntity where
  BackupId : String := ""
  Status : String := ""
deriving DecidableEq

structure Metadata where
  GUID : String := ""
  URL : String := ""
  CreatedAt : Time := 0
  UpdatedAt : Time := 0
deriving DecidableEq

structure BackupRestore where
  Metadata : Metadata := {}
  Entity : RestoreEntity := {}
deriving DecidableEq

structure BackupEntity where
  ServiceInstanceId : String := ""
  Status : String := ""
  Restores : List BackupRestore := []
deriving DecidableEq

structure ServiceInstanceBackup where
  Metadata : Option Metadata := none
  Entity : Option BackupEntity := none
deriving DecidableEq

structure ServiceInstanceResults where
  TotalResults : Int := 0
  TotalPages : Int := 0
  PrevURL : Option String := none
  NextURL : Option String := none
  Resources : List ServiceInstanceBackup := []
deriving DecidableEq

/-! ## The host connection and the libraries -/

/-- The fields of `plugin_models.GetService_Model` that the plugin reads. -/
structure ServiceOffering where
  Name : String := ""
deriving DecidableEq

structure GetService_Model where
  Guid : String := ""
  Name : String := ""
  ServiceOffering : ServiceOffering := {}
deriving DecidableEq

/-- The field of `plugin_models.Organization` / `Space` that the plugin reads. -/
structure Named where
  Name : String := ""
deriving DecidableEq

/-- One call on the host connection together with the host's answer. -/
inductive Call where
  | curl (args : List String) (output : List String) (err : error)
  | getService (name : String) (service : GetService_Model) (err : error)
  | getCurrentOrg (org : Named) (err : error)
  | getCurrentSpace (space : Named) (err : error)
deriving DecidableEq

abbrev Trace := List Call

/-- The host connection `plugin.CliConnection`; each method sees the calls
answered so far. -/
structure CliConnection where
  CliCommandWithoutTerminalOutput : Trace → List String → List String × error
  GetService : Trace → String → GetService_Model × error
  GetCurrentOrg : Trace → Named × error
  GetCurrentSpace : Trace → Named × error

/-- Go `string`. -/
abbrev Str := String

/-- The result of `flags.New()` after `Parse`: the three accessors used. -/
structure FlagContext where
  IsSet : Str → Bool
  String : Str → Str
  Int : Str → Int

/-- A flag declared on a `flags.FlagContext` before parsing. -/
inductive FlagDecl where
  | stringFlag (name short : String)
  | intFlag (name short : String)
deriving DecidableEq

/-- What the code uses of the libraries outside the repository.
`UnmarshalResults` and `UnmarshalBackup` are `json.Unmarshal` into a fresh
record of the type: the error, or the decoded record (the code never reads
the target after an error).  `Parse` is `fc.Parse` on a context with the
given flags declared.  `Sprint` is `color.New(attrs).SprintFunc()`. -/
structure Deps where
  UnmarshalResults : String → Except String ServiceInstanceResults
  UnmarshalBackup : String → Except String ServiceInstanceBackup
  Parse : List FlagDecl → List String → FlagContext × error
  Sprint : List String → String → String

/-! ## Computations -/

/-- How a computation ends. -/
inductive Outcome (α : Type) where
  | ret (a : α)
  | exited (status : Nat) (stdout : String)
  | panicked (reason : String)
  | outOfFuel
deriving DecidableEq

/-- A computation on the host: from the trace so far to its outcome and the
trace extended by the calls it made. -/
def M (α : Type) := Trace → Outcome α × Trace

def M.pure {α : Type} (a : α) : M α := fun tr => (.ret a, tr)

def M.bind {α β : Type} (m : M α) (f : α → M β) : M β := fun tr =>
  match m tr with
  | (.ret a, tr1) => f a tr1
  | (.exited s o, tr1) => (.exited s o, tr1)
  | (.panicked r, tr1) => (.panicked r, tr1)
  | (.outOfFuel, tr1) => (.outOfFuel, tr1)

instance : Monad M where
  pure := M.pure
  bind := M.bind

/-- A run-time panic. -/
def panicM {α : Type} (reason : String) : M α := fun tr => (.panicked reason, tr)

/-- The exit status of the process for an outcome that ends it; a panic ends
a Go process with status 2. -/
def Outcome.status {α : Type} : Outcome α → Option Nat
  | .ret _ => some 0
  | .exited s _ => some s
  | .panicked _ => some 2
  | .outOfFuel => none

def nilDeref : String := "invalid memory address or nil pointer dereference"

def indexOutOfRange : String := "index out of range"

/-- The method call `err.Error()`; on a `nil` error it panics. -/
def errorString (err : error) : M String :=
  match err with
  | some s => pure s
  | none => panicM nilDeref

/-! ## Strings -/

/-- Whether `s` starts with `p`. -/
def startsWith : List Char → List Char → Bool
  | _, [] => true
  | [], _ :: _ => false
  | c :: s, d :: p => c == d && startsWith s p

/-- Whether `sub` occurs in `s`. -/
def containsChars : List Char → List Char → Bool
  | [], sub => startsWith [] sub
  | c :: s, sub => startsWith (c :: s) sub || containsChars s sub

/-- The function `strings.Contains`. -/
def stringsContains (s substr : String) : Bool := containsChars s.data substr.data

/-- The function `strings.Join(output, "")`. -/
def stringsJoin (output : List String) : String := String.join output

/-! ## main.go -/

def serviceColor (deps : Deps) (param : String) : String := deps.Sprint ["FgHiCyan"] param

def redFgColor (deps : Deps) (param : String) : String := deps.Sprint ["FgRed"] param

def boldText (deps : Deps) (param : String) : String := deps.Sprint ["Bold"] param

def hiGreenFgColor (deps : Deps) (param : String) : String := deps.Sprint ["FgHiGreen"] param

/-- The function `exit1`: prints the banner and the message, ends the process
with status 1. -/
def exit1 {α : Type} (deps : Deps) (err : String) : M α := fun tr =>
  (.exited 1 (redFgColor deps "FAILED" ++ "\n" ++ err ++ "\n" ++ "\n"), tr)

/-- The loop body of `getOldestBackup` run over the remaining elements. -/
def getOldestBackupLoop : List ServiceInstanceBackup → ServiceInstanceBackup →
    Except String ServiceInstanceBackup
  | [], oldest => .ok oldest
  | e :: rest, oldest =>
    match oldest.Metadata with
    | none => getOldestBackupLoop rest e
    | some om =>
      match e.Metadata with
      | none => .error nilDeref
      | some em =>
        if em.CreatedAt < om.CreatedAt then getOldestBackupLoop rest e
        else getOldestBackupLoop rest oldest

/-- The function `getOldestBackup`; `.error` is a run-time panic. -/
def getOldestBackup (backupResults : ServiceInstanceResults) :
    Except String ServiceInstanceBackup :=
  if backupResults.Resources.length < 1 then .ok {}
  else getOldestBackupLoop backupResults.Resources {}

/-- The call `cliConnection.CliCommandWithoutTerminalOutput(args...)`. -/
def cliCommandWithoutTerminalOutput (cliConnection : CliConnection) (args : List String) :
    M (List String × error) := fun tr =>
  let r := cliConnection.CliCommandWithoutTerminalOutput tr args
  (.ret r, tr ++ [Call.curl args r.1 r.2])

/-- The call `cliConnection.GetService(serviceName)`. -/
def cliGetService (cliConnection : CliConnection) (serviceName : String) :
    M (GetService_Model × error) := fun tr =>
  let r := cliConnection.GetService tr serviceName
  (.ret r, tr ++ [Call.getService serviceName r.1 r.2])

/-- The call `cliConnection.GetCurrentOrg()`. -/
def cliGetCurrentOrg (cliConnection : CliConnection) : M (Named × error) := fun tr =>
  let r := cliConnection.GetCurrentOrg tr
  (.ret r, tr ++ [Call.getCurrentOrg r.1 r.2])

/-- The call `cliConnection.GetCurrentSpace()`. -/
def cliGetCurrentSpace (cliConnection : CliConnection) : M (Named × error) := fun tr =>
  let r := cliConnection.GetCurrentSpace tr
  (.ret r, tr ++ [Call.getCurrentSpace r.1 r.2])

def getCurrentOrgString (deps : Deps) (cliConnection : CliConnection) : M String := do
  let (org, err) ← cliGetCurrentOrg cliConnection
  if err ≠ none then
    exit1 deps "Error getting the current organization."
  pure org.Name

def getCurrentSpaceString (deps : Deps) (cliConnection : CliConnection) : M String := do
  let (space, err) ← cliGetCurrentSpace cliConnection
  if err ≠ none then
    exit1 deps "Error getting the current space."
  pure space.Name

/-- The loop of `getBackups`, `for nextURL != ""`, with a bound on the number
of iterations. -/
def getBackupsLoop (deps : Deps) (cliConnection : CliConnection) :
    Nat → String → ServiceInstanceResults → M (ServiceInstanceResults × error)
  | 0, nextURL, serviceInstanceResults =>
    if nextURL = "" then pure (serviceInstanceResults, none)
    else fun tr => (.outOfFuel, tr)
  | fuel + 1, nextURL, serviceInstanceResults =>
    if nextURL = "" then pure (serviceInstanceResults, none)
    else do
      let (output, err) ← cliCommandWithoutTerminalOutput cliConnection ["curl", nextURL]
      if err ≠ none then
        pure ({}, err)
      else
        let outputStr := stringsJoin output
        match deps.UnmarshalResults outputStr with
        | .error e => pure ({}, some e)
        | .ok results =>
          let acc : ServiceInstanceResults :=
            { serviceInstanceResults with
              Resources := serviceInstanceResults.Resources ++ results.Resources
              TotalResults := results.TotalResults
              TotalPages := results.TotalPages }
          match results.NextURL with
          | some u => getBackupsLoop deps cliConnection fuel u acc
          | none => getBackupsLoop deps cliConnection fuel "" acc

def backupsURL (serviceInstance : String) : String :=
  "/custom/service_instances/" ++ serviceInstance ++ "/backups"

def backupURL (serviceInstance backupInstance : String) : String :=
  "/custom/service_instances/" ++ serviceInstance ++ "/backups/" ++ backupInstance

def getBackups (deps : Deps) (fuel : Nat) (cliConnection : CliConnection)
    (serviceInstance : String) : M (ServiceInstanceResults × error) :=
  getBackupsLoop deps cliConnection fuel (backupsURL serviceInstance) {}

def createBackupMessage : String := "Create backup command was not successful.\nDetails:\n"

def createBackup (deps : Deps) (cliConnection : CliConnection) (serviceInstance : String) :
    M (Bool × error) := do
  let url := backupsURL serviceInstance
  let (output, err1) ← cliCommandWithoutTerminalOutput cliConnection ["curl", "-X", "POST", url]
  if err1 ≠ none then
    pure (false, err1)
  else
    let outputStr := stringsJoin output
    let failed : Bool :=
      match deps.UnmarshalBackup outputStr with
      | .error _ => true
      | .ok result => result.Entity.isNone
    if failed then
      match output with
      | [] => panicM indexOutOfRange
      | first :: _ => pure (false, some (createBackupMessage ++ first))
    else
      pure (true, none)

def getBackup (deps : Deps) (cliConnection : CliConnection)
    (serviceInstance backupInstance : String) : M (ServiceInstanceBackup × error) := do
  let url := backupURL serviceInstance backupInstance
  let (output, err1) ← cliCommandWithoutTerminalOutput cliConnection ["curl", url]
  if err1 ≠ none then
    pure ({}, err1)
  else
    let outputStr := stringsJoin output
    match deps.UnmarshalBackup outputStr with
    | .error err2 => pure ({}, some err2)
    | .ok result => pure (result, none)

def getService (deps : Deps) (cliConnection : CliConnection) (serviceName : String) :
    M GetService_Model := do
  let (service, err) ← cliGetService cliConnection serviceName
  if err ≠ none then do
    let msg ← errorString err
    exit1 deps ("Error getting service: " ++ msg)
  if service.Guid.length = 0 then
    exit1 deps "Does the service exists?"
  if !stringsContains service.ServiceOffering.Name "mariadb" then
    exit1 deps ("The service " ++ serviceColor deps service.Name ++
      " is not a MariaDB instance. This plugin does not yet support the backup of other service instances.")
  pure service

def deleteBackup (cliConnection : CliConnection) (serviceInstance backupInstance : String) :
    M (Bool × error) := do
  let url := backupURL serviceInstance backupInstance
  let (_, err) ← cliCommandWithoutTerminalOutput cliConnection ["curl", "-X", "DELETE", url]
  if err ≠ none then
    pure (false, err)
  else
    pure (true, none)

def serviceNameFlag : FlagDecl := .stringFlag "service-name" "s"

def maxBackupsRotationFlag : FlagDecl := .intFlag "max-backups-rotation" "m"

def backupGuidFlag : FlagDecl := .stringFlag "backup-guid" "b"

def parseArgumentsServiceNameAndRotationOption (deps : Deps) (args : List String) :
    M (FlagContext × error) := do
  let (fc, err) := deps.Parse [serviceNameFlag, maxBackupsRotationFlag] args
  if !fc.IsSet "service-name" then
    exit1 deps ("Error parsing the argument " ++ redFgColor deps "--service-name (-s)" ++
      ". Did you forget to specify it?")
  if err ≠ none then do
    let msg ← errorString err
    exit1 deps ("Error parsing the arguments: " ++ msg)
  pure (fc, err)

def parseArgumentsServiceNameAndBackupGuid (deps : Deps) (args : List String) :
    M (FlagContext × error) := do
  let (fc, err) := deps.Parse [serviceNameFlag, backupGuidFlag] args
  if !fc.IsSet "service-name" || !fc.IsSet "backup-guid" then
    exit1 deps ("Error parsing the arguments " ++ redFgColor deps "--service-name (-s)" ++
      " and " ++ redFgColor deps "--backup-guid (-b)" ++ ". Did you forget to specify it?")
  if err ≠ none then do
    let msg ← errorString err
    exit1 deps ("Error parsing the arguments: " ++ msg)
  pure (fc, err)

/-- The dereference `oldestBackup.Metadata.GUID`. -/
def metadataGUID (backup : ServiceInstanceBackup) : M String :=
  match backup.Metadata with
  | some md => pure md.GUID
  | none => panicM nilDeref

/-- The rotation step of `commandCreateBackup`: the body of
`if fc.IsSet("max-backups-rotation")`. -/
def rotateBackups (deps : Deps) (fuel : Nat) (cliConnection : CliConnection)
    (fc : FlagContext) (serviceName : String) (service : GetService_Model) : M Unit := do
  let (backupResults, err) ← getBackups deps fuel cliConnection service.Guid
  if err ≠ none then do
    let msg ← errorString err
    exit1 deps ("Error getting backups for service '" ++ serviceColor deps service.Name ++
      "': " ++ msg)
  if (backupResults.Resources.length : Int) ≥ fc.Int "max-backups-rotation" then do
    let oldestBackup ←
      match getOldestBackup backupResults with
      | .ok b => (pure b : M ServiceInstanceBackup)
      | .error r => panicM r
    let backupGuid ← metadataGUID oldestBackup
    let _ ← getCurrentOrgString deps cliConnection
    let _ ← getCurrentSpaceString deps cliConnection
    let (_, err) ← deleteBackup cliConnection service.Guid backupGuid
    if err ≠ none then do
      let msg ← errorString err
      exit1 deps ("Error deleting the backup " ++ boldText deps backupGuid ++ " of service " ++
        serviceColor deps serviceName ++ ": " ++ msg)

def commandCreateBackup (deps : Deps) (fuel : Nat) (args : List String)
    (cliConnection : CliConnection) : M Unit := do
  let (fc, err) ← parseArgumentsServiceNameAndRotationOption deps args
  if err ≠ none then do
    let msg ← errorString err
    exit1 deps msg
  let serviceName := fc.String "service-name"
  let service ← getService deps cliConnection serviceName
  if fc.IsSet "max-backups-rotation" then
    rotateBackups deps fuel cliConnection fc serviceName service
  let _ ← getCurrentOrgString deps cliConnection
  let _ ← getCurrentSpaceString deps cliConnection
  let (_, err2) ← createBackup deps cliConnection service.Guid
  if err2 ≠ none then do
    let msg ← errorString err2
    exit1 deps ("Error creating a backup for service '" ++ serviceColor deps service.Name ++
      "': " ++ msg)

def commandDeleteBackup (deps : Deps) (args : List String) (cliConnection : CliConnection) :
    M Unit := do
  let (fc, err) ← parseArgumentsServiceNameAndBackupGuid deps args
  if err ≠ none then do
    let msg ← errorString err
    exit1 deps msg
  let serviceName := fc.String "service-name"
  let backupGuid := fc.String "backup-guid"
  let service ← getService deps cliConnection serviceName
  let (_, errGetBackup) ← getBackup deps cliConnection service.Guid backupGuid
  if errGetBackup ≠ none then do
    let msg ← errorString err
    exit1 deps ("Error finding the backup " ++ boldText deps backupGuid ++ " of service " ++
      serviceColor deps serviceName ++ ": " ++ msg)
  let _ ← getCurrentOrgString deps cliConnection
  let _ ← getCurrentSpaceString deps cliConnection
  let (_, err) ← deleteBackup cliConnection service.Guid backupGuid
  if err ≠ none then do
    let msg ← errorString err
    exit1 deps ("Error deleting the backup " ++ boldText deps backupGuid ++ " of service " ++
      serviceColor deps serviceName ++ ": " ++ msg)

/-! ## Notions used to state the properties -/

/-- The `created_at` instant of a backup (0 when the metadata is absent). -/
def createdAt (b : ServiceInstanceBackup) : Time :=
  match b.Metadata with
  | some md => md.CreatedAt
  | none => 0

/-- The host serves a chain of pages from the trace `tr` on: `next` is the
`next_url` that leads to the first page of the list (`none` once the list is
exhausted), a request for it is answered without error by lines that decode
to the page, and the page's own `next_url` leads to the rest of the
list. -/
def ServesChain (deps : Deps) (cliConnection : CliConnection) :
    Trace → Option String → List (List String × ServiceInstanceResults) → Prop
  | _, next, [] => next = none
  | tr, next, (lines, page) :: rest =>
    ∃ url, next = some url ∧
      cliConnection.CliCommandWithoutTerminalOutput tr ["curl", url] = (lines, none) ∧
      deps.UnmarshalResults (stringsJoin lines) = .ok page ∧
      ServesChain deps cliConnection (tr ++ [Call.curl ["curl", url] lines none])
        page.NextURL rest

/-- A page request of `getBackups`: `curl <path>`. -/
def isFetch : Call → Bool
  | .curl [_, _] _ _ => true
  | _ => false

/-- A request `curl -X DELETE <path>`. -/
def isDelete : Call → Bool
  | .curl ["curl", "-X", "DELETE", _] _ _ => true
  | _ => false

/-- A request `curl -X POST <path>`. -/
def isPost : Call → Bool
  | .curl ["curl", "-X", "POST", _] _ _ => true
  | _ => false

/-- A page request of `getBackups` that makes it return an error: the
request failed, or its output does not decode. -/
def failedFetch (deps : Deps) : Call → Bool
  | .curl [_, _] output err =>
    err.isSome ||
      (match deps.UnmarshalResults (stringsJoin output) with
       | .error _ => true
       | .ok _ => false)
  | _ => false

/-- A request `curl -X DELETE <path>` that the host answered with an error. -/
def failedDelete : Call → Bool
  | .curl ["curl", "-X", "DELETE", _] _ err => err.isSome
  | _ => false

/-- No call of the trace segment is a failed page request or a failed DELETE
request. -/
def Quiet (deps : Deps) (ext : Trace) : Prop :=
  ∀ c ∈ ext, failedDelete c = false ∧ failedFetch deps c = false

/-- No call of the trace segment is the creation request. -/
def NoPost (ext : Trace) : Prop := ∀ c ∈ ext, isPost c = false

/-- The computation adds calls at the end of the trace, all of them with the
property `P`. -/
def AddsOnly {α : Type} (P : Call → Prop) (m : M α) : Prop :=
  ∀ tr, ∃ ext, (m tr).2 = tr ++ ext ∧ ∀ c ∈ ext, P c

/-- The computation adds calls at the end of the trace, none of them a
failed page request or a failed DELETE request. -/
def AddsQuietly {α : Type} (deps : Deps) (m : M α) : Prop :=
  AddsOnly (fun c => failedDelete c = false ∧ failedFetch deps c = false) m

/-- The computation adds calls at the end of the trace, none of them the
creation request, and it ends through `exit1` unless no page request and no
DELETE request failed. -/
def BeforeCreate {α : Type} (deps : Deps) (m : M α) : Prop :=
  ∀ tr, ∃ ext, (m tr).2 = tr ++ ext ∧ NoPost ext ∧
    ((∃ msg, (m tr).1 = .exited 1 msg) ∨ Quiet deps ext)

/-- The computation adds calls at the end of the trace; when a page request
or a DELETE request among them failed, it ends through `exit1` and the
creation request is not among them. -/
def AbortsOnFailure {α : Type} (deps : Deps) (m : M α) : Prop :=
  ∀ tr, ∃ ext, (m tr).2 = tr ++ ext ∧
    (Quiet deps ext ∨ ((∃ msg, (m tr).1 = .exited 1 msg) ∧ NoPost ext))

/-- The accumulator of `getBackups` after one more page. -/
def addPage (acc : ServiceInstanceResults) (p : List String × ServiceInstanceResults) :
    ServiceInstanceResults :=
  { acc with
    Resources := acc.Resources ++ p.2.Resources
    TotalResults := p.2.TotalResults
    TotalPages := p.2.TotalPages }

/-! ## Concrete hosts and library behaviour, for evaluating the code -/

/-- Nanoseconds from the zero `time.Time` to 2020-01-01T00:00:00Z. -/
def jan1 : Time := 63713433600000000000

def dayNs : Time := 86400000000000

def backupOn (guid : String) (createdAt : Time) : ServiceInstanceBackup :=
  { Metadata := some { GUID := guid, CreatedAt := createdAt },
    Entity := some { ServiceInstanceId := "g1", Status := "CREATE_SUCCEEDED" } }

/-- Backup `b1`, created 2020-01-03. -/
def b1 : ServiceInstanceBackup := backupOn "b1" (jan1 + 2 * dayNs)

/-- Backup `b2`, created 2020-01-01. -/
def b2 : ServiceInstanceBackup := backupOn "b2" jan1

/-- Backup `b3`, created 2020-01-02. -/
def b3 : ServiceInstanceBackup := backupOn "b3" (jan1 + dayNs)

/-- Backup `b4`, created 2020-01-04. -/
def b4 : ServiceInstanceBackup := backupOn "b4" (jan1 + 3 * dayNs)

def page2URL : String := "/custom/service_instances/g1/backups?page=2"

/-- Page 1 of 2: `b1`, `b2`, and a `next_url` to page 2. -/
def page1Lines : List String :=
  ["\x7b\"total_results\":3,\"total_pages\":2,\"prev_url\":null,\"next_url\":\"/custom/service_instances/g1/backups?page=2\",\"resources\":[",
    "\x7b\"metadata\":\x7b\"guid\":\"b1\",\"url\":\"\",\"created_at\":\"2020-01-03T00:00:00Z\",\"updated_at\":\"0001-01-01T00:00:00Z\"\x7d,\"entity\":\x7b\"service_instance_id\":\"g1\",\"status\":\"CREATE_SUCCEEDED\",\"restores\":[]\x7d\x7d,",
    "\x7b\"metadata\":\x7b\"guid\":\"b2\",\"url\":\"\",\"created_at\":\"2020-01-01T00:00:00Z\",\"updated_at\":\"0001-01-01T00:00:00Z\"\x7d,\"entity\":\x7b\"service_instance_id\":\"g1\",\"status\":\"CREATE_SUCCEEDED\",\"restores\":[]\x7d\x7d",
    "]\x7d"]

def page1 : ServiceInstanceResults :=
  { TotalResults := 3, TotalPages := 2, NextURL := some page2URL, Resources := [b1, b2] }

/-- Page 2 of 2: `b3`, no `next_url`. -/
def page2Lines : List String :=
  ["\x7b\"total_results\":3,\"total_pages\":2,\"prev_url\":\"/custom/service_instances/g1/backups\",\"next_url\":null,\"resources\":[",
    "\x7b\"metadata\":\x7b\"guid\":\"b3\",\"url\":\"\",\"created_at\":\"2020-01-02T00:00:00Z\",\"updated_at\":\"0001-01-01T00:00:00Z\"\x7d,\"entity\":\x7b\"service_instance_id\":\"g1\",\"status\":\"CREATE_SUCCEEDED\",\"restores\":[]\x7d\x7d",
    "]\x7d"]

def page2 : ServiceInstanceResults :=
  { TotalResults := 3, TotalPages := 2, PrevURL := some "/custom/service_instances/g1/backups",
    Resources := [b3] }

/-- A first page whose `next_url` is present and is the empty string. -/
def emptyNextLines : List String :=
  ["\x7b\"total_results\":2,\"total_pages\":2,\"prev_url\":null,\"next_url\":\"\",\"resources\":[",
    "\x7b\"metadata\":\x7b\"guid\":\"b1\",\"url\":\"\",\"created_at\":\"2020-01-03T00:00:00Z\",\"updated_at\":\"0001-01-01T00:00:00Z\"\x7d,\"entity\":\x7b\"service_instance_id\":\"g1\",\"status\":\"CREATE_SUCCEEDED\",\"restores\":[]\x7d\x7d",
    "]\x7d"]

def emptyNextPage : ServiceInstanceResults :=
  { TotalResults := 2, TotalPages := 2, NextURL := some "", Resources := [b1] }

/-- The page served at the empty path. -/
def afterEmptyLines : List String :=
  ["\x7b\"total_results\":2,\"total_pages\":2,\"prev_url\":null,\"next_url\":null,\"resources\":[",
    "\x7b\"metadata\":\x7b\"guid\":\"b2\",\"url\":\"\",\"created_at\":\"2020-01-01T00:00:00Z\",\"updated_at\":\"0001-01-01T00:00:00Z\"\x7d,\"entity\":\x7b\"service_instance_id\":\"g1\",\"status\":\"CREATE_SUCCEEDED\",\"restores\":[]\x7d\x7d",
    "]\x7d"]

def afterEmptyPage : ServiceInstanceResults :=
  { TotalResults := 2, TotalPages := 2, Resources := [b2] }

/-- A single page with the three backups. -/
def fullLines : List String :=
  ["\x7b\"total_results\":3,\"total_pages\":1,\"prev_url\":null,\"next_url\":null,\"resources\":[",
    "\x7b\"metadata\":\x7b\"guid\":\"b1\",\"url\":\"\",\"created_at\":\"2020-01-03T00:00:00Z\",\"updated_at\":\"0001-01-01T00:00:00Z\"\x7d,\"entity\":\x7b\"service_instance_id\":\"g1\",\"status\":\"CREATE_SUCCEEDED\",\"restores\":[]\x7d\x7d,",
    "\x7b\"metadata\":\x7b\"guid\":\"b2\",\"url\":\"\",\"created_at\":\"2020-01-01T00:00:00Z\",\"updated_at\":\"0001-01-01T00:00:00Z\"\x7d,\"entity\":\x7b\"service_instance_id\":\"g1\",\"status\":\"CREATE_SUCCEEDED\",\"restores\":[]\x7d\x7d,",
    "\x7b\"metadata\":\x7b\"guid\":\"b3\",\"url\":\"\",\"created_at\":\"2020-01-02T00:00:00Z\",\"updated_at\":\"0001-01-01T00:00:00Z\"\x7d,\"entity\":\x7b\"service_instance_id\":\"g1\",\"status\":\"CREATE_SUCCEEDED\",\"restores\":[]\x7d\x7d",
    "]\x7d"]

def fullPage : ServiceInstanceResults :=
  { TotalResults := 3, TotalPages := 1, Resources := [b1, b2, b3] }

/-- A single page without backups. -/
def noBackupsLines : List String :=
  ["\x7b\"total_results\":0,\"total_pages\":0,\"prev_url\":null,\"next_url\":null,\"resources\":[]\x7d"]

def noBackupsPage : ServiceInstanceResults := {}

/-- The body of a successful creation. -/
def createdLines : List String :=
  ["\x7b\"metadata\":\x7b\"guid\":\"b4\",\"url\":\"\",\"created_at\":\"2020-01-04T00:00:00Z\",\"updated_at\":\"0001-01-01T00:00:00Z\"\x7d,\"entity\":\x7b\"service_instance_id\":\"g1\",\"status\":\"CREATE_SUCCEEDED\",\"restores\":[]\x7d\x7d"]

/-- An error body of the API, printed over several lines. -/
def errorLines : List String :=
  ["\x7b",
    "   \"description\": \"Unknown request\",",
    "   \"error_code\": \"CF-NotFound\",",
    "   \"code\": 10000",
    "\x7d"]

/-- The decoder of page envelopes on the bodies above. -/
def demoUnmarshalResults (s : String) : Except String ServiceInstanceResults :=
  if s = stringsJoin page1Lines then .ok page1
  else if s = stringsJoin page2Lines then .ok page2
  else if s = stringsJoin emptyNextLines then .ok emptyNextPage
  else if s = stringsJoin afterEmptyLines then .ok afterEmptyPage
  else if s = stringsJoin fullLines then .ok fullPage
  else if s = stringsJoin noBackupsLines then .ok noBackupsPage
  else .error "invalid character looking for beginning of value"

/-- The decoder of backup records on the bodies above; the empty body is not
JSON, the error body is an object without `metadata` and `entity`. -/
def demoUnmarshalBackup (s : String) : Except String ServiceInstanceBackup :=
  if s = "" then .error "unexpected end of JSON input"
  else if s = stringsJoin createdLines then .ok b4
  else if s = stringsJoin errorLines then .ok {}
  else if s = stringsJoin ["\x7b\"metadata\":\x7b\"guid\":\"b1\",\"url\":\"\",\"created_at\":\"2020-01-03T00:00:00Z\",\"updated_at\":\"0001-01-01T00:00:00Z\"\x7d,\"entity\":\x7b\"service_instance_id\":\"g1\",\"status\":\"CREATE_SUCCEEDED\",\"restores\":[]\x7d\x7d"] then .ok b1
  else .error "invalid character looking for beginning of value"

def flagContextOf (strings : List (String × String)) (ints : List (String × Int)) :
    FlagContext :=
  { IsSet := fun name => (strings.lookup name).isSome || (ints.lookup name).isSome
    String := fun name => (strings.lookup name).getD ""
    Int := fun name => (ints.lookup name).getD 0 }

/-- The flag parser on the command lines used below. -/
def demoParse (_decls : List FlagDecl) (args : List String) : FlagContext × error :=
  match args with
  | [_, "-s", name] => (flagContextOf [("service-name", name)] [], none)
  | [_, "-s", name, "-m", "0"] =>
    (flagContextOf [("service-name", name)] [("max-backups-rotation", 0)], none)
  | [_, "-s", name, "-m", "3"] =>
    (flagContextOf [("service-name", name)] [("max-backups-rotation", 3)], none)
  | [_, "-s", name, "-b", guid] =>
    (flagContextOf [("service-name", name), ("backup-guid", guid)] [], none)
  | _ => (flagContextOf [] [], some "Invalid flag")

/-- The libraries on the inputs used below, colours switched off. -/
def demoDeps : Deps :=
  { UnmarshalResults := demoUnmarshalResults
    UnmarshalBackup := demoUnmarshalBackup
    Parse := demoParse
    Sprint := fun _ s => s }

def demoService : GetService_Model :=
  { Guid := "g1", Name := "db", ServiceOffering := { Name := "mariadb-galera" } }

/-- A host that answers the same way whatever happened before: `curl` by the
given table, the service lookup by `demoService`, the org and space lookups
with the given errors. -/
def scriptedCli (curl : List String → List String × error) (orgErr spaceErr : error) :
    CliConnection :=
  { CliCommandWithoutTerminalOutput := fun _ args => curl args
    GetService := fun _ _ => (demoService, none)
    GetCurrentOrg := fun _ => ({ Name := "org" }, orgErr)
    GetCurrentSpace := fun _ => ({ Name := "space" }, spaceErr) }

/-- Two pages of backups. -/
def curlTwoPages (args : List String) : List String × error :=
  if args = ["curl", "/custom/service_instances/g1/backups"] then (page1Lines, none)
  else if args = ["curl", page2URL] then (page2Lines, none)
  else ([], some "unexpected request")

/-- A first page with an empty `next_url`, and a page at the empty path. -/
def curlEmptyNext (args : List String) : List String × error :=
  if args = ["curl", "/custom/service_instances/g1/backups"] then (emptyNextLines, none)
  else if args = ["curl", ""] then (afterEmptyLines, none)
  else ([], some "unexpected request")

/-- Three backups on one page; deletion and creation succeed. -/
def curlThreeBackups (args : List String) : List String × error :=
  if args = ["curl", "/custom/service_instances/g1/backups"] then (fullLines, none)
  else if args = ["curl", "-X", "DELETE", "/custom/service_instances/g1/backups/b2"] then
    ([], none)
  else if args = ["curl", "-X", "POST", "/custom/service_instances/g1/backups"] then
    (createdLines, none)
  else ([], some "unexpected request")

/-- Three backups on one page; the deletion fails. -/
def curlDeleteFails (args : List String) : List String × error :=
  if args = ["curl", "/custom/service_instances/g1/backups"] then (fullLines, none)
  else if args = ["curl", "-X", "POST", "/custom/service_instances/g1/backups"] then
    (createdLines, none)
  else ([], some "Error performing request")

/-- No backups; creation succeeds. -/
def curlNoBackups (args : List String) : List String × error :=
  if args = ["curl", "/custom/service_instances/g1/backups"] then (noBackupsLines, none)
  else if args = ["curl", "-X", "POST", "/custom/service_instances/g1/backups"] then
    (createdLines, none)
  else ([], some "unexpected request")

/-- The creation request is answered with no output at all. -/
def curlSilentCreate (args : List String) : List String × error :=
  if args = ["curl", "-X", "POST", "/custom/service_instances/g1/backups"] then ([], none)
  else ([], some "unexpected request")

/-- The creation request is answered with the error body. -/
def curlCreateRejected (args : List String) : List String × error :=
  if args = ["curl", "-X", "POST", "/custom/service_instances/g1/backups"] then
    (errorLines, none)
  else ([], some "unexpected request")

/-- The backup looked up by `getBackup` is not found: the request fails. -/
def curlBackupMissing (args : List String) : List String × error :=
  if args = ["curl", "-X", "DELETE", "/custom/service_instances/g1/backups/b9"] then ([], none)
  else ([], some "Error performing request")

/-! ## Theorems -/

set_option maxRecDepth 100000

/-! ### Running a computation -/

theorem bind_run {α β : Type} (m : M α) (f : α → M β) (tr : Trace) :
    (m >>= f) tr =
      match m tr with
      | (.ret a, tr1) => f a tr1
      | (.exited s o, tr1) => (.exited s o, tr1)
      | (.panicked r, tr1) => (.panicked r, tr1)
      | (.outOfFuel, tr1) => (.outOfFuel, tr1) := rfl

theorem pure_run {α : Type} (a : α) (tr : Trace) : (pure a : M α) tr = (.ret a, tr) := rfl


/-! ### The building blocks of the commands -/

theorem getCurrentOrgString_run (deps : Deps) (cliConnection : CliConnection) (tr : Trace) :
    getCurrentOrgString deps cliConnection tr =
      ((if (cliConnection.GetCurrentOrg tr).2 ≠ none then
          Outcome.exited 1 (redFgColor deps "FAILED" ++ "\n" ++
            "Error getting the current organization." ++ "\n" ++ "\n")
        else Outcome.ret (cliConnection.GetCurrentOrg tr).1.Name),
        tr ++ [Call.getCurrentOrg (cliConnection.GetCurrentOrg tr).1
          (cliConnection.GetCurrentOrg tr).2]) := by
  by_cases h : (cliConnection.GetCurrentOrg tr).2 = none <;>
    simp [getCurrentOrgString, bind_run, cliGetCurrentOrg, pure_run, exit1, h]

theorem getCurrentSpaceString_run (deps : Deps) (cliConnection : CliConnection) (tr : Trace) :
    getCurrentSpaceString deps cliConnection tr =
      ((if (cliConnection.GetCurrentSpace tr).2 ≠ none then
          Outcome.exited 1 (redFgColor deps "FAILED" ++ "\n" ++
            "Error getting the current space." ++ "\n" ++ "\n")
        else Outcome.ret (cliConnection.GetCurrentSpace tr).1.Name),
        tr ++ [Call.getCurrentSpace (cliConnection.GetCurrentSpace tr).1
          (cliConnection.GetCurrentSpace tr).2]) := by
  by_cases h : (cliConnection.GetCurrentSpace tr).2 = none <;>
    simp [getCurrentSpaceString, bind_run, cliGetCurrentSpace, pure_run, exit1, h]

theorem deleteBackup_run (cliConnection : CliConnection)
    (serviceInstance backupInstance : String) (tr : Trace) :
    deleteBackup cliConnection serviceInstance backupInstance tr =
      (.ret (if (cliConnection.CliCommandWithoutTerminalOutput tr
              ["curl", "-X", "DELETE", backupURL serviceInstance backupInstance]).2 ≠ none
          then (false, (cliConnection.CliCommandWithoutTerminalOutput tr
              ["curl", "-X", "DELETE", backupURL serviceInstance backupInstance]).2)
          else (true, none)),
        tr ++ [Call.curl ["curl", "-X", "DELETE", backupURL serviceInstance backupInstance]
          (cliConnection.CliCommandWithoutTerminalOutput tr
            ["curl", "-X", "DELETE", backupURL serviceInstance backupInstance]).1
          (cliConnection.CliCommandWithoutTerminalOutput tr
            ["curl", "-X", "DELETE", backupURL serviceInstance backupInstance]).2]) := by
  by_cases h : (cliConnection.CliCommandWithoutTerminalOutput tr
      ["curl", "-X", "DELETE", backupURL serviceInstance backupInstance]).2 = none <;>
    simp [deleteBackup, bind_run, cliCommandWithoutTerminalOutput, pure_run, h]

/-- The one call of `getService` is the service lookup; it returns the
looked-up service or ends through `exit1`. -/
theorem getService_shape (deps : Deps) (cliConnection : CliConnection)
    (serviceName : String) (tr : Trace) :
    (getService deps cliConnection serviceName tr).2 =
        tr ++ [Call.getService serviceName (cliConnection.GetService tr serviceName).1
          (cliConnection.GetService tr serviceName).2] ∧
    ((getService deps cliConnection serviceName tr).1 =
        .ret (cliConnection.GetService tr serviceName).1 ∨
      ∃ msg, (getService deps cliConnection serviceName tr).1 = .exited 1 msg) := by
  rcases h : cliConnection.GetService tr serviceName with ⟨service, err⟩
  cases err with
  | some e =>
    simp [getService, bind_run, cliGetService, h, errorString, pure_run, exit1]
  | none =>
    by_cases hg : service.Guid.length = 0
    · simp [getService, bind_run, cliGetService, h, pure_run, exit1, hg]
    · cases hc : stringsContains service.ServiceOffering.Name "mariadb" <;>
        simp [getService, bind_run, cliGetService, h, pure_run, exit1, hg, hc]

/-- The function `parseArgumentsServiceNameAndRotationOption` makes no call
on the host; it returns the flag context, with a `nil` error, or ends
through `exit1`. -/
theorem parseArgumentsServiceNameAndRotationOption_run (deps : Deps) (args : List String)
    (tr : Trace) :
    parseArgumentsServiceNameAndRotationOption deps args tr =
      ((if (deps.Parse [serviceNameFlag, maxBackupsRotationFlag] args).1.IsSet
            "service-name" = false then
          Outcome.exited 1 (redFgColor deps "FAILED" ++ "\n" ++
            ("Error parsing the argument " ++ redFgColor deps "--service-name (-s)" ++
              ". Did you forget to specify it?") ++ "\n" ++ "\n")
        else match (deps.Parse [serviceNameFlag, maxBackupsRotationFlag] args).2 with
          | some e => Outcome.exited 1 (redFgColor deps "FAILED" ++ "\n" ++
              ("Error parsing the arguments: " ++ e) ++ "\n" ++ "\n")
          | none => Outcome.ret ((deps.Parse [serviceNameFlag, maxBackupsRotationFlag] args).1,
              none)), tr) := by
  rcases h : deps.Parse [serviceNameFlag, maxBackupsRotationFlag] args with ⟨fc, err⟩
  cases hs : fc.IsSet "service-name" <;> cases err <;>
    simp [parseArgumentsServiceNameAndRotationOption, bind_run, pure_run, exit1, h, hs,
      errorString]

theorem parseArgumentsServiceNameAndBackupGuid_run (deps : Deps) (args : List String)
    (tr : Trace) :
    parseArgumentsServiceNameAndBackupGuid deps args tr =
      ((if ((deps.Parse [serviceNameFlag, backupGuidFlag] args).1.IsSet "service-name" &&
            (deps.Parse [serviceNameFlag, backupGuidFlag] args).1.IsSet "backup-guid") =
              false then
          Outcome.exited 1 (redFgColor deps "FAILED" ++ "\n" ++
            ("Error parsing the arguments " ++ redFgColor deps "--service-name (-s)" ++
              " and " ++ redFgColor deps "--backup-guid (-b)" ++
              ". Did you forget to specify it?") ++ "\n" ++ "\n")
        else match (deps.Parse [serviceNameFlag, backupGuidFlag] args).2 with
          | some e => Outcome.exited 1 (redFgColor deps "FAILED" ++ "\n" ++
              ("Error parsing the arguments: " ++ e) ++ "\n" ++ "\n")
          | none => Outcome.ret ((deps.Parse [serviceNameFlag, backupGuidFlag] args).1,
              none)), tr) := by
  rcases h : deps.Parse [serviceNameFlag, backupGuidFlag] args with ⟨fc, err⟩
  cases hs : fc.IsSet "service-name" <;> cases hb : fc.IsSet "backup-guid" <;> cases err <;>
    simp [parseArgumentsServiceNameAndBackupGuid, bind_run, pure_run, exit1, h, hs, hb,
      errorString]

/-! ### Pagination -/

theorem backupsURL_ne_empty (serviceInstance : String) : backupsURL serviceInstance ≠ "" := by
  intro h
  have h1 := congrArg String.data h
  simp [backupsURL, String.data_append] at h1

theorem getBackupsLoop_empty (deps : Deps) (cliConnection : CliConnection) (fuel : Nat)
    (acc : ServiceInstanceResults) (tr : Trace) :
    getBackupsLoop deps cliConnection fuel "" acc tr = (.ret (acc, none), tr) := by
  cases fuel <;> simp [getBackupsLoop, pure_run]

/-- One iteration of the loop of `getBackups` on a page that is served and
decodes. -/
theorem getBackupsLoop_step (deps : Deps) (cliConnection : CliConnection) (fuel : Nat)
    (nextURL : String) (acc : ServiceInstanceResults) (tr : Trace) (output : List String)
    (results : ServiceInstanceResults) (hurl : nextURL ≠ "")
    (hcurl : cliConnection.CliCommandWithoutTerminalOutput tr ["curl", nextURL] = (output, none))
    (hdec : deps.UnmarshalResults (stringsJoin output) = .ok results) :
    getBackupsLoop deps cliConnection (fuel + 1) nextURL acc tr =
      getBackupsLoop deps cliConnection fuel (results.NextURL.getD "")
        { acc with
          Resources := acc.Resources ++ results.Resources
          TotalResults := results.TotalResults
          TotalPages := results.TotalPages }
        (tr ++ [Call.curl ["curl", nextURL] output none]) := by
  cases hn : results.NextURL <;>
    simp [getBackupsLoop, hurl, bind_run, cliCommandWithoutTerminalOutput, hcurl, hdec, hn]

theorem foldl_addPage_Resources (pages : List (List String × ServiceInstanceResults)) :
    ∀ acc : ServiceInstanceResults,
      (pages.foldl addPage acc).Resources =
        acc.Resources ++ (pages.map (fun p => p.2.Resources)).flatten := by
  induction pages with
  | nil => intro acc; simp
  | cons p rest ih => intro acc; simp [ih, addPage]

theorem getBackupsLoop_chain (deps : Deps) (cliConnection : CliConnection)
    (pages : List (List String × ServiceInstanceResults)) :
    ∀ (next : Option String) (acc : ServiceInstanceResults) (tr : Trace) (fuel : Nat),
      ServesChain deps cliConnection tr next pages →
      (∀ p ∈ pages, p.2.NextURL ≠ some "") → next ≠ some "" → pages.length ≤ fuel →
      ∃ trF, getBackupsLoop deps cliConnection fuel (next.getD "") acc tr =
        (.ret (pages.foldl addPage acc, none), trF) := by
  induction pages with
  | nil =>
    intro next acc tr fuel hchain _ _ _
    simp only [ServesChain] at hchain
    rw [hchain]
    exact ⟨tr, getBackupsLoop_empty deps cliConnection fuel acc tr⟩
  | cons p rest ih =>
    intro next acc tr fuel hchain hne hnext hfuel
    obtain ⟨lines, page⟩ := p
    simp only [ServesChain] at hchain
    obtain ⟨url, hurl, hcurl, hdec, hrest⟩ := hchain
    have hurl1 : url ≠ "" := by
      intro h
      rw [hurl, h] at hnext
      exact hnext rfl
    obtain ⟨fuel1, hf⟩ : ∃ fuel1, fuel = fuel1 + 1 :=
      ⟨fuel - 1, by simp only [List.length_cons] at hfuel; omega⟩
    have hpage : page.NextURL ≠ some "" := hne (lines, page) (List.mem_cons_self _ _)
    obtain ⟨trF, hrun⟩ :=
      ih page.NextURL (addPage acc (lines, page))
        (tr ++ [Call.curl ["curl", url] lines none]) fuel1 hrest
        (fun q hq => hne q (List.mem_cons_of_mem _ hq)) hpage
        (by simp only [List.length_cons] at hfuel; omega)
    refine ⟨trF, ?_⟩
    rw [hurl, hf, Option.getD_some,
      getBackupsLoop_step deps cliConnection fuel1 url acc tr lines page hurl1 hcurl hdec]
    exact hrun

/-- C1 (as amended): over a host that serves a chain of N >= 1 decodable
pages, with the start path returning page 1, page i leading to page i+1 by
its `next_url`, page N without `next_url`, and no `next_url` on the chain
being the empty string, `getBackups` returns without error, for every fuel
of at least N, a result whose `Resources` is the concatenation of the pages'
resources in page order and whose `TotalResults` and `TotalPages` are those
of page N. -/
theorem getBackups_concatenates_chain (deps : Deps) (cliConnection : CliConnection)
    (serviceInstance : String) (tr : Trace)
    (init : List (List String × ServiceInstanceResults))
    (last : List String × ServiceInstanceResults) (fuel : Nat)
    (hchain : ServesChain deps cliConnection tr (some (backupsURL serviceInstance))
      (init ++ [last]))
    (hnonempty : ∀ p ∈ init ++ [last], p.2.NextURL ≠ some "")
    (hfuel : init.length + 1 ≤ fuel) :
    ∃ res trF,
      getBackups deps fuel cliConnection serviceInstance tr = (.ret (res, none), trF) ∧
      res.Resources = ((init ++ [last]).map (fun p => p.2.Resources)).flatten ∧
      res.TotalResults = last.2.TotalResults ∧ res.TotalPages = last.2.TotalPages := by
  obtain ⟨trF, hrun⟩ :=
    getBackupsLoop_chain deps cliConnection (init ++ [last])
      (some (backupsURL serviceInstance)) {} tr fuel hchain hnonempty
      (by
        intro h
        exact backupsURL_ne_empty serviceInstance (Option.some.inj h))
      (by simpa using hfuel)
  refine ⟨(init ++ [last]).foldl addPage {}, trF, hrun, ?_, ?_, ?_⟩
  · rw [foldl_addPage_Resources]; rfl
  · simp [List.foldl_append, addPage]
  · simp [List.foldl_append, addPage]

/-- The requests made by the loop of `getBackups` are page requests, added
at the end of the trace; the loop either returns or runs out of fuel, and
when it does not return an error every page request succeeded and
decoded. -/
theorem getBackupsLoop_shape (deps : Deps) (cliConnection : CliConnection) (fuel : Nat) :
    ∀ (nextURL : String) (acc : ServiceInstanceResults) (tr : Trace),
      ∃ ext, (getBackupsLoop deps cliConnection fuel nextURL acc tr).2 = tr ++ ext ∧
        (∀ c ∈ ext, isFetch c = true) ∧
        ((∃ res err, (getBackupsLoop deps cliConnection fuel nextURL acc tr).1 =
              .ret (res, err) ∧ (err = none → ∀ c ∈ ext, failedFetch deps c = false)) ∨
          ((getBackupsLoop deps cliConnection fuel nextURL acc tr).1 = .outOfFuel ∧
            ∀ c ∈ ext, failedFetch deps c = false)) := by
  induction fuel with
  | zero =>
    intro nextURL acc tr
    by_cases hurl : nextURL = ""
    · exact ⟨[], by simp [getBackupsLoop, hurl, pure_run], by simp,
        Or.inl ⟨acc, none, by simp [getBackupsLoop, hurl, pure_run], by simp⟩⟩
    · exact ⟨[], by simp [getBackupsLoop, hurl], by simp,
        Or.inr ⟨by simp [getBackupsLoop, hurl], by simp⟩⟩
  | succ fuel ih =>
    intro nextURL acc tr
    by_cases hurl : nextURL = ""
    · exact ⟨[], by simp [getBackupsLoop, hurl, pure_run], by simp,
        Or.inl ⟨acc, none, by simp [getBackupsLoop, hurl, pure_run], by simp⟩⟩
    · rcases hcurl : cliConnection.CliCommandWithoutTerminalOutput tr ["curl", nextURL] with
        ⟨output, err⟩
      cases err with
      | some e =>
        refine ⟨[Call.curl ["curl", nextURL] output (some e)], ?_, by simp [isFetch], Or.inl
          ⟨{}, some e, ?_, by simp⟩⟩ <;>
          simp [getBackupsLoop, hurl, bind_run, cliCommandWithoutTerminalOutput, hcurl, pure_run]
      | none =>
        cases hdec : deps.UnmarshalResults (stringsJoin output) with
        | error e =>
          refine ⟨[Call.curl ["curl", nextURL] output none], ?_, by simp [isFetch], Or.inl
            ⟨{}, some e, ?_, by simp⟩⟩ <;>
            simp [getBackupsLoop, hurl, bind_run, cliCommandWithoutTerminalOutput, hcurl,
              pure_run, hdec]
        | ok results =>
          have hstep := getBackupsLoop_step deps cliConnection fuel nextURL acc tr output
            results hurl hcurl hdec
          obtain ⟨ext, htr, hfetch, hout⟩ := ih (results.NextURL.getD "")
            { acc with
              Resources := acc.Resources ++ results.Resources
              TotalResults := results.TotalResults
              TotalPages := results.TotalPages }
            (tr ++ [Call.curl ["curl", nextURL] output none])
          have hgood : failedFetch deps (Call.curl ["curl", nextURL] output none) = false := by
            simp [failedFetch, hdec]
          refine ⟨Call.curl ["curl", nextURL] output none :: ext, ?_, ?_, ?_⟩
          · rw [hstep, htr]; simp
          · intro c hc
            rcases List.mem_cons.mp hc with hc | hc
            · rw [hc]; rfl
            · exact hfetch c hc
          · rw [hstep]
            rcases hout with ⟨res, err, hret, hclean⟩ | ⟨hfuel, hclean⟩
            · refine Or.inl ⟨res, err, hret, fun herr c hc => ?_⟩
              rcases List.mem_cons.mp hc with hc | hc
              · rw [hc]; exact hgood
              · exact hclean herr c hc
            · refine Or.inr ⟨hfuel, fun c hc => ?_⟩
              rcases List.mem_cons.mp hc with hc | hc
              · rw [hc]; exact hgood
              · exact hclean c hc

/-- When the loop of `getBackups` returns an error, one of its page requests
failed or did not decode. -/
theorem getBackupsLoop_error_has_failed_fetch (deps : Deps) (cliConnection : CliConnection)
    (fuel : Nat) :
    ∀ (nextURL : String) (acc : ServiceInstanceResults) (tr : Trace)
      (res : ServiceInstanceResults) (e : String),
      (getBackupsLoop deps cliConnection fuel nextURL acc tr).1 = .ret (res, some e) →
      ∃ c ∈ (getBackupsLoop deps cliConnection fuel nextURL acc tr).2,
        failedFetch deps c = true := by
  induction fuel with
  | zero =>
    intro nextURL acc tr res e h
    by_cases hurl : nextURL = "" <;> simp [getBackupsLoop, hurl, pure_run] at h
  | succ fuel ih =>
    intro nextURL acc tr res e h
    by_cases hurl : nextURL = ""
    · simp [getBackupsLoop, hurl, pure_run] at h
    · rcases hcurl : cliConnection.CliCommandWithoutTerminalOutput tr ["curl", nextURL] with
        ⟨output, err⟩
      cases err with
      | some e1 =>
        refine ⟨Call.curl ["curl", nextURL] output (some e1), ?_, by simp [failedFetch]⟩
        simp [getBackupsLoop, hurl, bind_run, cliCommandWithoutTerminalOutput, hcurl, pure_run]
      | none =>
        cases hdec : deps.UnmarshalResults (stringsJoin output) with
        | error e1 =>
          refine ⟨Call.curl ["curl", nextURL] output none, ?_, by simp [failedFetch, hdec]⟩
          simp [getBackupsLoop, hurl, bind_run, cliCommandWithoutTerminalOutput, hcurl,
            pure_run, hdec]
        | ok results =>
          have hstep := getBackupsLoop_step deps cliConnection fuel nextURL acc tr output
            results hurl hcurl hdec
          rw [hstep] at h ⊢
          exact ih _ _ _ res e h

/-- The first request of the loop of `getBackups` on a non-empty path is the
request for that path. -/
theorem getBackupsLoop_first_request (deps : Deps) (cliConnection : CliConnection) (fuel : Nat)
    (nextURL : String) (acc : ServiceInstanceResults) (tr : Trace) (hurl : nextURL ≠ "") :
    ∃ out rest, getBackupsLoop deps cliConnection (fuel + 1) nextURL acc tr =
      (out, tr ++ Call.curl ["curl", nextURL]
        (cliConnection.CliCommandWithoutTerminalOutput tr ["curl", nextURL]).1
        (cliConnection.CliCommandWithoutTerminalOutput tr ["curl", nextURL]).2 :: rest) := by
  rcases hcurl : cliConnection.CliCommandWithoutTerminalOutput tr ["curl", nextURL] with
    ⟨output, err⟩
  cases err with
  | some e =>
    exact ⟨.ret ({}, some e), [], by
      simp [getBackupsLoop, hurl, bind_run, cliCommandWithoutTerminalOutput, hcurl, pure_run]⟩
  | none =>
    cases hdec : deps.UnmarshalResults (stringsJoin output) with
    | error e =>
      exact ⟨.ret ({}, some e), [], by
        simp [getBackupsLoop, hurl, bind_run, cliCommandWithoutTerminalOutput, hcurl,
          pure_run, hdec]⟩
    | ok results =>
      have hstep := getBackupsLoop_step deps cliConnection fuel nextURL acc tr output
        results hurl hcurl hdec
      obtain ⟨ext, htr, _, _⟩ := getBackupsLoop_shape deps cliConnection fuel
        (results.NextURL.getD "")
        { acc with
          Resources := acc.Resources ++ results.Resources
          TotalResults := results.TotalResults
          TotalPages := results.TotalPages }
        (tr ++ [Call.curl ["curl", nextURL] output none])
      refine ⟨(getBackupsLoop deps cliConnection (fuel + 1) nextURL acc tr).1, ext, ?_⟩
      apply Prod.ext
      · rfl
      · rw [hstep, htr]; simp

/-- C9 (as amended): after a page that was served and decoded, the loop of
`getBackups` requests another page exactly when the page's `next_url` is
present and is not the empty string, and the path of that request is the
`next_url`; when `next_url` is absent or empty the loop returns the
accumulated result without a further request. -/
theorem getBackupsLoop_continues_iff_next_nonempty (deps : Deps)
    (cliConnection : CliConnection) (fuel : Nat) (nextURL : String)
    (acc : ServiceInstanceResults) (tr : Trace) (output : List String)
    (results : ServiceInstanceResults) (hurl : nextURL ≠ "")
    (hcurl : cliConnection.CliCommandWithoutTerminalOutput tr ["curl", nextURL] = (output, none))
    (hdec : deps.UnmarshalResults (stringsJoin output) = .ok results) :
    ((results.NextURL = none ∨ results.NextURL = some "") →
      getBackupsLoop deps cliConnection (fuel + 1) nextURL acc tr =
        (.ret (addPage acc (output, results), none),
          tr ++ [Call.curl ["curl", nextURL] output none])) ∧
    (∀ u, results.NextURL = some u → u ≠ "" →
      ∃ out rest, getBackupsLoop deps cliConnection (fuel + 2) nextURL acc tr =
        (out, tr ++ [Call.curl ["curl", nextURL] output none] ++
          Call.curl ["curl", u]
            (cliConnection.CliCommandWithoutTerminalOutput
              (tr ++ [Call.curl ["curl", nextURL] output none]) ["curl", u]).1
            (cliConnection.CliCommandWithoutTerminalOutput
              (tr ++ [Call.curl ["curl", nextURL] output none]) ["curl", u]).2 :: rest)) := by
  constructor
  · intro hstop
    rw [getBackupsLoop_step deps cliConnection fuel nextURL acc tr output results hurl hcurl hdec]
    have hd : results.NextURL.getD "" = "" := by
      rcases hstop with h | h <;> rw [h] <;> rfl
    rw [hd, getBackupsLoop_empty]
    rfl
  · intro u hu hne
    rw [getBackupsLoop_step deps cliConnection (fuel + 1) nextURL acc tr output results hurl
      hcurl hdec, hu, Option.getD_some]
    exact getBackupsLoop_first_request deps cliConnection fuel u _ _ hne

/-- The two-page host serves the chain page 1, page 2 from the start path. -/
theorem twoPages_chain :
    ServesChain demoDeps (scriptedCli curlTwoPages none none) []
      (some (backupsURL "g1")) ([(page1Lines, page1)] ++ [(page2Lines, page2)]) :=
  ⟨backupsURL "g1", rfl, rfl, rfl, page2URL, rfl, rfl, rfl, rfl⟩

/-- The pagination theorem on the two-page host: the three backups in page
order, with the totals of page 2. -/
theorem getBackups_concatenates_chain_witness :
    ServesChain demoDeps (scriptedCli curlTwoPages none none) []
      (some (backupsURL "g1")) ([(page1Lines, page1)] ++ [(page2Lines, page2)]) ∧
    (∀ p ∈ [(page1Lines, page1)] ++ [(page2Lines, page2)], p.2.NextURL ≠ some "") ∧
    ∃ res trF,
      getBackups demoDeps 2 (scriptedCli curlTwoPages none none) "g1" [] =
        (.ret (res, none), trF) ∧
      res.Resources = [b1, b2, b3] ∧ res.TotalResults = 3 ∧ res.TotalPages = 2 :=
  ⟨twoPages_chain, by decide,
    getBackups_concatenates_chain demoDeps (scriptedCli curlTwoPages none none) "g1" []
      [(page1Lines, page1)] (page2Lines, page2) 2 twoPages_chain (by decide) (by decide)⟩

/-- C1, as stated, fails: the host serves a chain of two pages, the first
with `next_url` equal to the empty string and the second at the empty path,
and for no fuel does `getBackups` return the concatenation of the two
pages' resources; with any fuel of at least 1 it returns after the first
page with that page alone. -/
theorem getBackups_chain_through_empty_path_not_followed :
    ServesChain demoDeps (scriptedCli curlEmptyNext none none) []
      (some (backupsURL "g1"))
      ([(emptyNextLines, emptyNextPage)] ++ [(afterEmptyLines, afterEmptyPage)]) ∧
    (∀ fuel, ¬ ∃ res trF,
      getBackups demoDeps fuel (scriptedCli curlEmptyNext none none) "g1" [] =
        (.ret (res, none), trF) ∧
      res.Resources =
        (([(emptyNextLines, emptyNextPage)] ++ [(afterEmptyLines, afterEmptyPage)]).map
          (fun p => p.2.Resources)).flatten) ∧
    (∀ fuel, (getBackups demoDeps (fuel + 1) (scriptedCli curlEmptyNext none none) "g1" []).1 =
      .ret ({ TotalResults := 2, TotalPages := 2, Resources := [b1] }, none)) := by
  have hrun : ∀ fuel,
      getBackups demoDeps (fuel + 1) (scriptedCli curlEmptyNext none none) "g1" [] =
        (.ret ({ TotalResults := 2, TotalPages := 2, Resources := [b1] }, none),
          [Call.curl ["curl", backupsURL "g1"] emptyNextLines none]) := by
    intro fuel
    cases fuel <;> rfl
  refine ⟨⟨backupsURL "g1", rfl, rfl, rfl, "", rfl, rfl, rfl, rfl⟩, ?_, fun fuel => by
    rw [hrun fuel]⟩
  intro fuel
  rintro ⟨res, trF, hret, hres⟩
  cases fuel with
  | zero =>
    have h0 : (getBackups demoDeps 0 (scriptedCli curlEmptyNext none none) "g1" []).1 =
        .outOfFuel := rfl
    rw [hret] at h0
    exact Outcome.noConfusion h0
  | succ fuel =>
    rw [hrun fuel] at hret
    have h1 := (Prod.mk.inj (Outcome.ret.inj (Prod.mk.inj hret).1)).1
    rw [← h1] at hres
    revert hres
    decide

/-- C9, as stated, fails: the first page of this host decodes with
`next_url` present (it is the empty string), and `getBackups` returns after
the request for that page without requesting another one. -/
theorem getBackups_stops_on_present_empty_next :
    demoDeps.UnmarshalResults (stringsJoin emptyNextLines) = .ok emptyNextPage ∧
    emptyNextPage.NextURL = some "" ∧
    ∀ fuel, getBackups demoDeps (fuel + 1) (scriptedCli curlEmptyNext none none) "g1" [] =
      (.ret ({ TotalResults := 2, TotalPages := 2, Resources := [b1] }, none),
        [Call.curl ["curl", "/custom/service_instances/g1/backups"] emptyNextLines none]) := by
  refine ⟨rfl, rfl, fun fuel => ?_⟩
  cases fuel <;> rfl

/-- The continuation theorem on the two-page host: after page 1 the next
request is the one for its `next_url`. -/
theorem getBackupsLoop_continues_iff_next_nonempty_witness :
    backupsURL "g1" ≠ "" ∧
    (scriptedCli curlTwoPages none none).CliCommandWithoutTerminalOutput []
      ["curl", backupsURL "g1"] = (page1Lines, none) ∧
    demoDeps.UnmarshalResults (stringsJoin page1Lines) = .ok page1 ∧
    ∃ out rest, getBackupsLoop demoDeps (scriptedCli curlTwoPages none none) 2
      (backupsURL "g1") {} [] =
        (out, [Call.curl ["curl", backupsURL "g1"] page1Lines none,
          Call.curl ["curl", page2URL] page2Lines none] ++ rest) :=
  ⟨backupsURL_ne_empty "g1", rfl, rfl,
    (getBackupsLoop_continues_iff_next_nonempty demoDeps (scriptedCli curlTwoPages none none) 0
      (backupsURL "g1") {} [] page1Lines page1 (backupsURL_ne_empty "g1") rfl rfl).2
      page2URL rfl (by decide)⟩

/-! ### Oldest-backup selection -/


theorem getOldestBackupLoop_spec (rest : List ServiceInstanceBackup) :
    ∀ (pre : List ServiceInstanceBackup) (o : ServiceInstanceBackup)
      (post : List ServiceInstanceBackup),
      o.Metadata ≠ none → (∀ b ∈ rest, b.Metadata ≠ none) →
      (∀ b ∈ pre, createdAt o < createdAt b) → (∀ b ∈ post, createdAt o ≤ createdAt b) →
      ∃ pre1 r post1, pre ++ o :: post ++ rest = pre1 ++ r :: post1 ∧
        getOldestBackupLoop rest o = .ok r ∧ r.Metadata ≠ none ∧
        (∀ b ∈ pre1, createdAt r < createdAt b) ∧ (∀ b ∈ post1, createdAt r ≤ createdAt b) := by
  induction rest with
  | nil =>
    intro pre o post ho _ hpre hpost
    exact ⟨pre, o, post, by simp, rfl, ho, hpre, hpost⟩
  | cons e rest ih =>
    intro pre o post ho hrest hpre hpost
    have he : e.Metadata ≠ none := hrest e (List.mem_cons_self _ _)
    have hrest1 : ∀ b ∈ rest, b.Metadata ≠ none := fun b hb => hrest b (List.mem_cons_of_mem _ hb)
    obtain ⟨om, hom⟩ := Option.ne_none_iff_exists'.mp ho
    obtain ⟨em, hem⟩ := Option.ne_none_iff_exists'.mp he
    have hco : createdAt o = om.CreatedAt := by simp [createdAt, hom]
    have hce : createdAt e = em.CreatedAt := by simp [createdAt, hem]
    by_cases hlt : em.CreatedAt < om.CreatedAt
    · have hlt1 : createdAt e < createdAt o := by rw [hco, hce]; exact hlt
      obtain ⟨pre1, r, post1, heq, hrun, hr, h1, h2⟩ :=
        ih (pre ++ o :: post) e [] he hrest1
          (by
            intro b hb
            rcases List.mem_append.mp hb with hb | hb
            · exact lt_trans hlt1 (hpre b hb)
            · rcases List.mem_cons.mp hb with hb | hb
              · rw [hb]; exact hlt1
              · exact lt_of_lt_of_le hlt1 (hpost b hb))
          (by simp)
      refine ⟨pre1, r, post1, ?_, ?_, hr, h1, h2⟩
      · rw [← heq]; simp
      · simp only [getOldestBackupLoop, hom, hem, hlt, if_true]; exact hrun
    · have hle : createdAt o ≤ createdAt e := by rw [hco, hce]; exact not_lt.mp hlt
      obtain ⟨pre1, r, post1, heq, hrun, hr, h1, h2⟩ :=
        ih pre o (post ++ [e]) ho hrest1 hpre
          (by
            intro b hb
            rcases List.mem_append.mp hb with hb | hb
            · exact hpost b hb
            · rw [List.mem_singleton.mp hb]; exact hle)
      refine ⟨pre1, r, post1, ?_, ?_, hr, h1, h2⟩
      · rw [← heq]; simp
      · simp only [getOldestBackupLoop, hom, hem, hlt, if_false]; exact hrun

/-- C2: on a non-empty list of backups that all carry metadata,
`getOldestBackup` returns the first element in list order whose `created_at`
is minimal: the list splits as `pre ++ oldest :: post` with every element of
`pre` strictly later than `oldest` and every element of `post` not earlier.
When the timestamps are pairwise distinct it is the only element with the
minimal timestamp, and for a one-element list it is that element. -/
theorem getOldestBackup_first_minimal (backupResults : ServiceInstanceResults)
    (hne : backupResults.Resources ≠ [])
    (hmeta : ∀ b ∈ backupResults.Resources, b.Metadata ≠ none) :
    ∃ pre oldest post, backupResults.Resources = pre ++ oldest :: post ∧
      getOldestBackup backupResults = .ok oldest ∧
      (∀ b ∈ pre, createdAt oldest < createdAt b) ∧
      (∀ b ∈ post, createdAt oldest ≤ createdAt b) ∧
      (backupResults.Resources.Pairwise (fun a b => createdAt a ≠ createdAt b) →
        ∀ b ∈ backupResults.Resources,
          (∀ x ∈ backupResults.Resources, createdAt b ≤ createdAt x) → b = oldest) ∧
      (∀ x, backupResults.Resources = [x] → oldest = x) := by
  obtain ⟨first, rest, hres⟩ := List.exists_cons_of_ne_nil hne
  have hfirst : first.Metadata ≠ none := hmeta first (by rw [hres]; exact List.mem_cons_self _ _)
  have hrest : ∀ b ∈ rest, b.Metadata ≠ none :=
    fun b hb => hmeta b (by rw [hres]; exact List.mem_cons_of_mem _ hb)
  obtain ⟨pre, r, post, heq, hrun, _, h1, h2⟩ :=
    getOldestBackupLoop_spec rest [] first [] hfirst hrest (by simp) (by simp)
  have hsplit : backupResults.Resources = pre ++ r :: post := by
    rw [hres, ← heq]; simp
  refine ⟨pre, r, post, hsplit, ?_, h1, h2, ?_, ?_⟩
  · simp only [getOldestBackup, hres, List.length_cons]
    rw [if_neg (by omega)]
    simpa [getOldestBackupLoop] using hrun
  · intro hpw b hb hmin
    rw [hsplit] at hpw hb hmin
    have hrmem : r ∈ pre ++ r :: post := by simp
    rcases List.mem_append.mp hb with hb1 | hb1
    · exact absurd (hmin r hrmem) (not_le.mpr (h1 b hb1))
    · rcases List.mem_cons.mp hb1 with hb2 | hb2
      · exact hb2
      · have hpw2 := (List.pairwise_append.mp hpw).2.1
        have hne2 := (List.pairwise_cons.mp hpw2).1 b hb2
        exact absurd (le_antisymm (h2 b hb2) (hmin r hrmem)) hne2
  · intro x hx
    rw [hx] at hres
    have h3 : first = x ∧ rest = [] := by
      have := List.cons.inj hres.symm
      exact ⟨this.1, this.2⟩
    rw [h3.2] at hrun
    simp only [getOldestBackupLoop] at hrun
    rw [← h3.1]
    exact (Except.ok.inj hrun).symm

/-- The selection theorem on the page with the three backups. -/
theorem getOldestBackup_first_minimal_witness :
    fullPage.Resources ≠ [] ∧ (∀ b ∈ fullPage.Resources, b.Metadata ≠ none) ∧
    ∃ pre oldest post, fullPage.Resources = pre ++ oldest :: post ∧
      getOldestBackup fullPage = .ok oldest ∧
      (∀ b ∈ pre, createdAt oldest < createdAt b) ∧
      (∀ b ∈ post, createdAt oldest ≤ createdAt b) ∧
      (fullPage.Resources.Pairwise (fun a b => createdAt a ≠ createdAt b) →
        ∀ b ∈ fullPage.Resources,
          (∀ x ∈ fullPage.Resources, createdAt b ≤ createdAt x) → b = oldest) ∧
      (∀ x, fullPage.Resources = [x] → oldest = x) :=
  ⟨by decide, by decide, getOldestBackup_first_minimal fullPage (by decide) (by decide)⟩

/-! ### Service resolution -/

theorem string_length_eq_zero (s : String) : s.length = 0 ↔ s = "" := by
  constructor
  · intro h
    have h1 : s.data = [] := List.length_eq_zero.mp h
    exact String.ext h1
  · intro h; rw [h]; rfl

/-- C7: `getService` returns the looked-up service exactly when the host
lookup did not error, the GUID is non-empty and the offering name contains
"mariadb"; in every other case the command ends through `exit1` with status
1.  The offering "mariadb-galera" passes the check, "postgres" fails it. -/
theorem getService_returns_iff (deps : Deps) (cliConnection : CliConnection)
    (serviceName : String) (tr : Trace) :
    ((getService deps cliConnection serviceName tr).1 =
        .ret (cliConnection.GetService tr serviceName).1 ↔
      ((cliConnection.GetService tr serviceName).2 = none ∧
        (cliConnection.GetService tr serviceName).1.Guid ≠ "" ∧
        stringsContains (cliConnection.GetService tr serviceName).1.ServiceOffering.Name
          "mariadb" = true)) ∧
    (¬ ((cliConnection.GetService tr serviceName).2 = none ∧
        (cliConnection.GetService tr serviceName).1.Guid ≠ "" ∧
        stringsContains (cliConnection.GetService tr serviceName).1.ServiceOffering.Name
          "mariadb" = true) →
      ∃ msg, (getService deps cliConnection serviceName tr).1 = .exited 1 msg ∧
        (Outcome.exited 1 msg : Outcome GetService_Model).status = some 1) ∧
    stringsContains "mariadb-galera" "mariadb" = true ∧
    stringsContains "postgres" "mariadb" = false := by
  have key : ∀ (service : GetService_Model) (err : error),
      cliConnection.GetService tr serviceName = (service, err) →
      ((err = none ∧ service.Guid ≠ "" ∧
          stringsContains service.ServiceOffering.Name "mariadb" = true) →
        (getService deps cliConnection serviceName tr).1 = .ret service) ∧
      (¬ (err = none ∧ service.Guid ≠ "" ∧
          stringsContains service.ServiceOffering.Name "mariadb" = true) →
        ∃ msg, (getService deps cliConnection serviceName tr).1 = .exited 1 msg) := by
    intro service err h
    cases err with
    | some e =>
      simp [getService, bind_run, cliGetService, h, errorString, pure_run, exit1]
    | none =>
      by_cases hg : service.Guid.length = 0
      · have hg1 : service.Guid = "" := (string_length_eq_zero _).mp hg
        simp [getService, bind_run, cliGetService, h, pure_run, exit1, hg, hg1]
      · have hg1 : service.Guid ≠ "" := fun hh => hg ((string_length_eq_zero _).mpr hh)
        cases hc : stringsContains service.ServiceOffering.Name "mariadb" <;>
          simp [getService, bind_run, cliGetService, h, pure_run, exit1, hg, hg1, hc]
  obtain ⟨h1, h2⟩ := key _ _ (Prod.mk.eta).symm
  refine ⟨⟨?_, h1⟩, ?_, by decide, by decide⟩
  · intro hret
    by_contra hcon
    obtain ⟨msg, hmsg⟩ := h2 hcon
    rw [hmsg] at hret
    exact Outcome.noConfusion hret
  · intro hcon
    obtain ⟨msg, hmsg⟩ := h2 hcon
    exact ⟨msg, hmsg, rfl⟩

/-! ### createBackup -/

/-- What `createBackup` does on a response that the host returned without
error: `(true, nil)` when the joined lines decode with `entity` present;
otherwise `(false, error)` with the first line in the message when there is
a first line, and a panic when there is none. -/
theorem createBackup_run (deps : Deps) (cliConnection : CliConnection)
    (serviceInstance : String) (tr : Trace) (output : List String)
    (hcurl : cliConnection.CliCommandWithoutTerminalOutput tr
      ["curl", "-X", "POST", backupsURL serviceInstance] = (output, none)) :
    createBackup deps cliConnection serviceInstance tr =
      ((if (match deps.UnmarshalBackup (stringsJoin output) with
            | .error _ => true
            | .ok result => result.Entity.isNone) = true then
          (match output with
           | [] => Outcome.panicked indexOutOfRange
           | first :: _ => Outcome.ret (false, some (createBackupMessage ++ first)))
        else Outcome.ret (true, none)),
        tr ++ [Call.curl ["curl", "-X", "POST", backupsURL serviceInstance] output none]) := by
  simp only [createBackup, bind_run, cliCommandWithoutTerminalOutput, hcurl, ne_eq,
    not_true_eq_false, if_false]
  split
  · cases output <;> simp [pure_run, panicM]
  · simp [pure_run]

/-- The success predicate of `createBackup`: on a response returned without
error it reports `(true, nil)` exactly when the joined lines decode and the
decoded `entity` is present. -/
theorem createBackup_success_iff (deps : Deps) (cliConnection : CliConnection)
    (serviceInstance : String) (tr : Trace) (output : List String)
    (hcurl : cliConnection.CliCommandWithoutTerminalOutput tr
      ["curl", "-X", "POST", backupsURL serviceInstance] = (output, none)) :
    (createBackup deps cliConnection serviceInstance tr).1 = .ret (true, none) ↔
      ∃ result entity, deps.UnmarshalBackup (stringsJoin output) = .ok result ∧
        result.Entity = some entity := by
  rw [createBackup_run deps cliConnection serviceInstance tr output hcurl]
  cases hdec : deps.UnmarshalBackup (stringsJoin output) with
  | error e => cases output <;> simp
  | ok result =>
    cases hent : result.Entity with
    | none => cases output <;> simp [hent]
    | some entity => simp [hent]

/-- C3 (the code at the failing input): when the host answers the creation
request without error and without any output line, and the empty body does
not decode to a record with `entity` present, `createBackup` does not return
`(false, error)`: evaluating `output[0]` panics. -/
theorem createBackup_panics_on_empty_output (deps : Deps) (cliConnection : CliConnection)
    (serviceInstance : String) (tr : Trace)
    (hcurl : cliConnection.CliCommandWithoutTerminalOutput tr
      ["curl", "-X", "POST", backupsURL serviceInstance] = ([], none))
    (hdec : ∀ result, deps.UnmarshalBackup "" = .ok result → result.Entity = none) :
    (createBackup deps cliConnection serviceInstance tr).1 = .panicked indexOutOfRange ∧
    (createBackup deps cliConnection serviceInstance tr).1.status = some 2 := by
  rw [createBackup_run deps cliConnection serviceInstance tr [] hcurl]
  have hj : stringsJoin [] = "" := rfl
  cases h : deps.UnmarshalBackup "" with
  | error e => simp [hj, h, Outcome.status]
  | ok result => simp [hj, h, hdec result h, Outcome.status]

/-- The panic on a host that answers the creation request with no output. -/
theorem createBackup_panics_on_empty_output_witness :
    (scriptedCli curlSilentCreate none none).CliCommandWithoutTerminalOutput []
      ["curl", "-X", "POST", backupsURL "g1"] = ([], none) ∧
    (∀ result, demoDeps.UnmarshalBackup "" = .ok result → result.Entity = none) ∧
    (createBackup demoDeps (scriptedCli curlSilentCreate none none) "g1" []).1 =
      .panicked indexOutOfRange ∧
    (createBackup demoDeps (scriptedCli curlSilentCreate none none) "g1" []).1.status =
      some 2 :=
  ⟨rfl, fun _ h => Except.noConfusion h,
    createBackup_panics_on_empty_output demoDeps (scriptedCli curlSilentCreate none none)
      "g1" [] rfl (fun _ h => Except.noConfusion h)⟩

/-- C4 (the code at the failing input): the host answers the creation
request with an error body printed over five lines; the body decodes with
`entity` absent, and the error that `createBackup` returns carries the first
line only, so its message does not contain the joined body. -/
theorem createBackup_message_has_first_line_only :
    demoDeps.UnmarshalBackup (stringsJoin errorLines) = .ok {} ∧
    (createBackup demoDeps (scriptedCli curlCreateRejected none none) "g1" []).1 =
      .ret (false, some (createBackupMessage ++ "\x7b")) ∧
    stringsContains (createBackupMessage ++ "\x7b") (stringsJoin errorLines) = false := by
  refine ⟨rfl, rfl, ?_⟩
  decide

/-! ### The delete command -/

theorem getBackup_trace (deps : Deps) (cliConnection : CliConnection)
    (serviceInstance backupInstance : String) (tr : Trace) :
    (getBackup deps cliConnection serviceInstance backupInstance tr).2 =
      tr ++ [Call.curl ["curl", backupURL serviceInstance backupInstance]
        (cliConnection.CliCommandWithoutTerminalOutput tr
          ["curl", backupURL serviceInstance backupInstance]).1
        (cliConnection.CliCommandWithoutTerminalOutput tr
          ["curl", backupURL serviceInstance backupInstance]).2] := by
  rcases h : cliConnection.CliCommandWithoutTerminalOutput tr
    ["curl", backupURL serviceInstance backupInstance] with ⟨output, err⟩
  cases err with
  | some e => simp [getBackup, bind_run, cliCommandWithoutTerminalOutput, h, pure_run]
  | none =>
    cases hd : deps.UnmarshalBackup (stringsJoin output) <;>
      simp [getBackup, bind_run, cliCommandWithoutTerminalOutput, h, pure_run, hd]

/-- C8 (the code on the failing inputs): in every run of the delete command
in which the arguments parse, the service is resolved and the `getBackup`
existence check returns an error, the command does not end through `exit1`
with status 1: building the message calls `Error()` on the `nil` error left
by the argument parser, which panics (status 2).  No DELETE request has been
issued at that point. -/
theorem commandDeleteBackup_panics_when_getBackup_errors (deps : Deps) (args : List String)
    (cliConnection : CliConnection) (fc : FlagContext) (perr : error) (tr0 : Trace)
    (service : GetService_Model) (tr1 : Trace) (res : ServiceInstanceBackup) (e : String)
    (tr2 : Trace)
    (hparse : parseArgumentsServiceNameAndBackupGuid deps args [] = (.ret (fc, perr), tr0))
    (hsvc : getService deps cliConnection (fc.String "service-name") tr0 = (.ret service, tr1))
    (hget : getBackup deps cliConnection service.Guid (fc.String "backup-guid") tr1 =
      (.ret (res, some e), tr2)) :
    commandDeleteBackup deps args cliConnection [] = (.panicked nilDeref, tr2) ∧
    (commandDeleteBackup deps args cliConnection []).1.status = some 2 ∧
    ∀ c ∈ (commandDeleteBackup deps args cliConnection []).2, isDelete c = false := by
  have hp := parseArgumentsServiceNameAndBackupGuid_run deps args []
  rw [hparse] at hp
  have hperr : perr = none ∧ tr0 = [] := by
    have h2 := (Prod.mk.inj hp).2
    have h1 := (Prod.mk.inj hp).1
    refine ⟨?_, h2⟩
    split at h1
    · exact Outcome.noConfusion h1
    · split at h1
      · exact Outcome.noConfusion h1
      · exact (Prod.mk.inj (Outcome.ret.inj h1)).2
  obtain ⟨hperr, htr0⟩ := hperr
  subst hperr
  subst htr0
  have hrun : commandDeleteBackup deps args cliConnection [] = (.panicked nilDeref, tr2) := by
    simp [commandDeleteBackup, bind_run, hparse, hsvc, hget, pure_run, errorString, panicM]
  refine ⟨hrun, by rw [hrun]; rfl, ?_⟩
  rw [hrun]
  have h1 := (getService_shape deps cliConnection (fc.String "service-name") []).1
  rw [hsvc] at h1
  have h2 := getBackup_trace deps cliConnection service.Guid (fc.String "backup-guid") tr1
  rw [hget] at h2
  simp only at h1 h2
  intro c hc
  rw [h2, h1] at hc
  simp only [List.nil_append, List.cons_append, List.mem_cons, List.mem_singleton,
    List.not_mem_nil, or_false] at hc
  rcases hc with hc | hc <;> rw [hc] <;> simp [isDelete, backupURL]

/-- The delete command on a host where the backup lookup fails. -/
theorem commandDeleteBackup_panics_when_getBackup_errors_witness :
    (commandDeleteBackup demoDeps ["delete-mariadb-backup", "-s", "db", "-b", "b9"]
      (scriptedCli curlBackupMissing none none) []).1 = .panicked nilDeref ∧
    (commandDeleteBackup demoDeps ["delete-mariadb-backup", "-s", "db", "-b", "b9"]
      (scriptedCli curlBackupMissing none none) []).1.status = some 2 :=
  have h := commandDeleteBackup_panics_when_getBackup_errors demoDeps
    ["delete-mariadb-backup", "-s", "db", "-b", "b9"] (scriptedCli curlBackupMissing none none)
    (demoParse [serviceNameFlag, backupGuidFlag]
      ["delete-mariadb-backup", "-s", "db", "-b", "b9"]).1 none [] demoService
    [Call.getService "db" demoService none] {} "Error performing request"
    [Call.getService "db" demoService none,
      Call.curl ["curl", "/custom/service_instances/g1/backups/b9"] []
        (some "Error performing request")]
    rfl rfl rfl
  ⟨by rw [h.1], h.2.1⟩

/-! ### The create command -/

theorem isFetch_not_other (c : Call) (h : isFetch c = true) :
    isPost c = false ∧ isDelete c = false ∧ failedDelete c = false := by
  cases c with
  | curl args output err =>
    rcases args with _ | ⟨a, _ | ⟨b, _ | ⟨d, rest⟩⟩⟩ <;>
      simp [isFetch, isPost, isDelete, failedDelete] at h ⊢
  | getService n s e => simp [isFetch] at h
  | getCurrentOrg o e => simp [isFetch] at h
  | getCurrentSpace s e => simp [isFetch] at h

theorem quiet_nil (deps : Deps) : Quiet deps [] := by
  intro c hc; cases hc

theorem noPost_nil : NoPost [] := by
  intro c hc; cases hc

theorem quiet_append {deps : Deps} {e1 e2 : Trace} (h1 : Quiet deps e1) (h2 : Quiet deps e2) :
    Quiet deps (e1 ++ e2) := by
  intro c hc
  rcases List.mem_append.mp hc with hc | hc
  · exact h1 c hc
  · exact h2 c hc

theorem noPost_append {e1 e2 : Trace} (h1 : NoPost e1) (h2 : NoPost e2) :
    NoPost (e1 ++ e2) := by
  intro c hc
  rcases List.mem_append.mp hc with hc | hc
  · exact h1 c hc
  · exact h2 c hc

theorem addsOnly_of_no_call {α : Type} (P : Call → Prop) (m : M α)
    (h : ∀ tr, (m tr).2 = tr) : AddsOnly P m :=
  fun tr => ⟨[], by simp [h tr], fun c hc => by cases hc⟩

theorem addsOnly_bind {α β : Type} {P : Call → Prop} {m : M α} {f : α → M β}
    (hm : AddsOnly P m) (hf : ∀ a, AddsOnly P (f a)) : AddsOnly P (m >>= f) := by
  intro tr
  obtain ⟨e1, h1, q1⟩ := hm tr
  rcases hr : m tr with ⟨out, tr1⟩
  rw [hr] at h1
  simp only at h1
  subst h1
  cases out with
  | ret a =>
    obtain ⟨e2, h2, q2⟩ := hf a (tr ++ e1)
    refine ⟨e1 ++ e2, by simp [bind_run, hr, h2], fun c hc => ?_⟩
    rcases List.mem_append.mp hc with hc | hc
    · exact q1 c hc
    · exact q2 c hc
  | exited s o => exact ⟨e1, by simp [bind_run, hr], q1⟩
  | panicked r => exact ⟨e1, by simp [bind_run, hr], q1⟩
  | outOfFuel => exact ⟨e1, by simp [bind_run, hr], q1⟩

theorem addsOnly_of_single {α : Type} {P : Call → Prop} {m : M α}
    (h : ∀ tr, ∃ c, (m tr).2 = tr ++ [c] ∧ P c) : AddsOnly P m := by
  intro tr
  obtain ⟨c, h1, h2⟩ := h tr
  exact ⟨[c], h1, fun d hd => by rw [List.mem_singleton.mp hd]; exact h2⟩

theorem beforeCreate_of_no_call {α : Type} (deps : Deps) (m : M α)
    (h : ∀ tr, (m tr).2 = tr) : BeforeCreate deps m :=
  fun tr => ⟨[], by simp [h tr], noPost_nil, Or.inr (quiet_nil deps)⟩

theorem beforeCreate_bind {α β : Type} {deps : Deps} {m : M α} {f : α → M β}
    (hm : BeforeCreate deps m) (hf : ∀ a, BeforeCreate deps (f a)) :
    BeforeCreate deps (m >>= f) := by
  intro tr
  obtain ⟨e1, h1, p1, q1⟩ := hm tr
  rcases hr : m tr with ⟨out, tr1⟩
  rw [hr] at h1 q1
  simp only at h1 q1
  subst h1
  cases out with
  | ret a =>
    have q1 : Quiet deps e1 := by
      rcases q1 with ⟨msg, hmsg⟩ | q1
      · exact Outcome.noConfusion hmsg
      · exact q1
    obtain ⟨e2, h2, p2, q2⟩ := hf a (tr ++ e1)
    refine ⟨e1 ++ e2, by simp [bind_run, hr, h2], noPost_append p1 p2, ?_⟩
    rcases q2 with ⟨msg, hmsg⟩ | q2
    · exact Or.inl ⟨msg, by simp [bind_run, hr, hmsg]⟩
    · exact Or.inr (quiet_append q1 q2)
  | exited s o =>
    refine ⟨e1, by simp [bind_run, hr], p1, ?_⟩
    rcases q1 with ⟨msg, hmsg⟩ | q1
    · obtain ⟨hs, ho⟩ := Outcome.exited.inj hmsg
      exact Or.inl ⟨msg, by simp only [bind_run, hr]; rw [hs, ho]⟩
    · exact Or.inr q1
  | panicked r =>
    refine ⟨e1, by simp [bind_run, hr], p1, ?_⟩
    rcases q1 with ⟨msg, hmsg⟩ | q1
    · exact Outcome.noConfusion hmsg
    · exact Or.inr q1
  | outOfFuel =>
    refine ⟨e1, by simp [bind_run, hr], p1, ?_⟩
    rcases q1 with ⟨msg, hmsg⟩ | q1
    · exact Outcome.noConfusion hmsg
    · exact Or.inr q1

theorem abortsOnFailure_of_quiet {α : Type} {deps : Deps} {m : M α}
    (h : AddsQuietly deps m) : AbortsOnFailure deps m := by
  intro tr
  obtain ⟨ext, h1, q⟩ := h tr
  exact ⟨ext, h1, Or.inl q⟩

theorem abortsOnFailure_bind {α β : Type} {deps : Deps} {m : M α} {f : α → M β}
    (hm : BeforeCreate deps m) (hf : ∀ a, AbortsOnFailure deps (f a)) :
    AbortsOnFailure deps (m >>= f) := by
  intro tr
  obtain ⟨e1, h1, p1, q1⟩ := hm tr
  rcases hr : m tr with ⟨out, tr1⟩
  rw [hr] at h1 q1
  simp only at h1 q1
  subst h1
  cases out with
  | ret a =>
    have q1 : Quiet deps e1 := by
      rcases q1 with ⟨msg, hmsg⟩ | q1
      · exact Outcome.noConfusion hmsg
      · exact q1
    obtain ⟨e2, h2, q2⟩ := hf a (tr ++ e1)
    refine ⟨e1 ++ e2, by simp [bind_run, hr, h2], ?_⟩
    rcases q2 with q2 | ⟨⟨msg, hmsg⟩, p2⟩
    · exact Or.inl (quiet_append q1 q2)
    · exact Or.inr ⟨⟨msg, by simp [bind_run, hr, hmsg]⟩, noPost_append p1 p2⟩
  | exited s o =>
    refine ⟨e1, by simp [bind_run, hr], ?_⟩
    rcases q1 with ⟨msg, hmsg⟩ | q1
    · obtain ⟨hs, ho⟩ := Outcome.exited.inj hmsg
      exact Or.inr ⟨⟨msg, by simp only [bind_run, hr]; rw [hs, ho]⟩, p1⟩
    · exact Or.inl q1
  | panicked r =>
    refine ⟨e1, by simp [bind_run, hr], ?_⟩
    rcases q1 with ⟨msg, hmsg⟩ | q1
    · exact Outcome.noConfusion hmsg
    · exact Or.inl q1
  | outOfFuel =>
    refine ⟨e1, by simp [bind_run, hr], ?_⟩
    rcases q1 with ⟨msg, hmsg⟩ | q1
    · exact Outcome.noConfusion hmsg
    · exact Or.inl q1

theorem getCurrentOrgString_before (deps : Deps) (cliConnection : CliConnection) :
    BeforeCreate deps (getCurrentOrgString deps cliConnection) := by
  intro tr
  refine ⟨[_], by rw [getCurrentOrgString_run], ?_, Or.inr ?_⟩ <;>
    intro c hc <;> rw [List.mem_singleton.mp hc] <;> simp [isPost, failedDelete, failedFetch]

theorem getCurrentSpaceString_before (deps : Deps) (cliConnection : CliConnection) :
    BeforeCreate deps (getCurrentSpaceString deps cliConnection) := by
  intro tr
  refine ⟨[_], by rw [getCurrentSpaceString_run], ?_, Or.inr ?_⟩ <;>
    intro c hc <;> rw [List.mem_singleton.mp hc] <;> simp [isPost, failedDelete, failedFetch]

theorem getService_before (deps : Deps) (cliConnection : CliConnection) (serviceName : String) :
    BeforeCreate deps (getService deps cliConnection serviceName) := by
  intro tr
  refine ⟨[_], (getService_shape deps cliConnection serviceName tr).1, ?_, Or.inr ?_⟩ <;>
    intro c hc <;> rw [List.mem_singleton.mp hc] <;> simp [isPost, failedDelete, failedFetch]

theorem getCurrentOrgString_adds (deps : Deps) (cliConnection : CliConnection)
    (P : Call → Prop) (hP : ∀ o e, P (Call.getCurrentOrg o e)) :
    AddsOnly P (getCurrentOrgString deps cliConnection) :=
  addsOnly_of_single (fun tr => ⟨_, by rw [getCurrentOrgString_run], hP _ _⟩)

theorem getCurrentSpaceString_adds (deps : Deps) (cliConnection : CliConnection)
    (P : Call → Prop) (hP : ∀ s e, P (Call.getCurrentSpace s e)) :
    AddsOnly P (getCurrentSpaceString deps cliConnection) :=
  addsOnly_of_single (fun tr => ⟨_, by rw [getCurrentSpaceString_run], hP _ _⟩)

theorem getService_adds (deps : Deps) (cliConnection : CliConnection) (serviceName : String)
    (P : Call → Prop) (hP : ∀ n s e, P (Call.getService n s e)) :
    AddsOnly P (getService deps cliConnection serviceName) :=
  addsOnly_of_single (fun tr =>
    ⟨_, (getService_shape deps cliConnection serviceName tr).1, hP _ _ _⟩)

/-- The one call of `createBackup` is the creation request. -/
theorem createBackup_trace (deps : Deps) (cliConnection : CliConnection)
    (serviceInstance : String) (tr : Trace) :
    (createBackup deps cliConnection serviceInstance tr).2 =
      tr ++ [Call.curl ["curl", "-X", "POST", backupsURL serviceInstance]
        (cliConnection.CliCommandWithoutTerminalOutput tr
          ["curl", "-X", "POST", backupsURL serviceInstance]).1
        (cliConnection.CliCommandWithoutTerminalOutput tr
          ["curl", "-X", "POST", backupsURL serviceInstance]).2] := by
  rcases h : cliConnection.CliCommandWithoutTerminalOutput tr
    ["curl", "-X", "POST", backupsURL serviceInstance] with ⟨output, err⟩
  cases err with
  | some e => simp [createBackup, bind_run, cliCommandWithoutTerminalOutput, h, pure_run]
  | none => rw [createBackup_run deps cliConnection serviceInstance tr output h]

theorem createBackup_adds (deps : Deps) (cliConnection : CliConnection)
    (serviceInstance : String) (P : Call → Prop)
    (hP : ∀ out e, P (Call.curl ["curl", "-X", "POST", backupsURL serviceInstance] out e)) :
    AddsOnly P (createBackup deps cliConnection serviceInstance) :=
  addsOnly_of_single (fun tr =>
    ⟨_, createBackup_trace deps cliConnection serviceInstance tr, hP _ _⟩)

/-- The statements of `commandCreateBackup` after the rotation block add the
two lookups and the creation request at most. -/
theorem createTail_adds (deps : Deps) (cliConnection : CliConnection)
    (service : GetService_Model) (P : Call → Prop)
    (horg : ∀ o e, P (Call.getCurrentOrg o e)) (hspace : ∀ s e, P (Call.getCurrentSpace s e))
    (hpost : ∀ out e, P (Call.curl ["curl", "-X", "POST", backupsURL service.Guid] out e)) :
    AddsOnly P (do
      let _ ← getCurrentOrgString deps cliConnection
      let _ ← getCurrentSpaceString deps cliConnection
      let (_, err2) ← createBackup deps cliConnection service.Guid
      if err2 ≠ none then do
        let msg ← errorString err2
        exit1 deps ("Error creating a backup for service \x27" ++
          serviceColor deps service.Name ++ "\x27: " ++ msg) : M Unit) := by
  apply addsOnly_bind (getCurrentOrgString_adds deps cliConnection P horg)
  intro _
  apply addsOnly_bind (getCurrentSpaceString_adds deps cliConnection P hspace)
  intro _
  apply addsOnly_bind (createBackup_adds deps cliConnection _ P hpost)
  rintro ⟨b, err2⟩
  cases err2
  · exact addsOnly_of_no_call P _ (fun tr => rfl)
  · exact addsOnly_of_no_call P _ (fun tr => rfl)

/-- The page fetch followed by a continuation that ends through `exit1` on
an error of the fetch. -/
theorem beforeCreate_getBackups_bind {β : Type} (deps : Deps) (fuel : Nat)
    (cliConnection : CliConnection) (serviceInstance : String)
    (f : ServiceInstanceResults × error → M β)
    (hexit : ∀ res e tr, ∃ msg, f (res, some e) tr = (.exited 1 msg, tr))
    (hok : ∀ res, BeforeCreate deps (f (res, none))) :
    BeforeCreate deps (getBackups deps fuel cliConnection serviceInstance >>= f) := by
  intro tr
  obtain ⟨ext, htr, hfetch, hout⟩ :=
    getBackupsLoop_shape deps cliConnection fuel (backupsURL serviceInstance) {} tr
  rcases hg : getBackupsLoop deps cliConnection fuel (backupsURL serviceInstance) {} tr with
    ⟨out, tr2⟩
  rw [hg] at htr hout
  simp only at htr hout
  subst htr
  have hpost : NoPost ext := fun c hc => (isFetch_not_other c (hfetch c hc)).1
  have hquiet : (∀ c ∈ ext, failedFetch deps c = false) → Quiet deps ext :=
    fun h c hc => ⟨(isFetch_not_other c (hfetch c hc)).2.2, h c hc⟩
  rcases hout with ⟨res, err, hret, hclean⟩ | ⟨hfuel, hclean⟩
  · subst hret
    cases err with
    | some e =>
      obtain ⟨msg, hmsg⟩ := hexit res e (tr ++ ext)
      exact ⟨ext, by simp [bind_run, getBackups, hg, hmsg], hpost,
        Or.inl ⟨msg, by simp [bind_run, getBackups, hg, hmsg]⟩⟩
    | none =>
      obtain ⟨e2, h2, p2, q2⟩ := hok res (tr ++ ext)
      refine ⟨ext ++ e2, by simp [bind_run, getBackups, hg, h2], noPost_append hpost p2, ?_⟩
      rcases q2 with ⟨msg, hmsg⟩ | q2
      · exact Or.inl ⟨msg, by simp [bind_run, getBackups, hg, hmsg]⟩
      · exact Or.inr (quiet_append (hquiet (hclean rfl)) q2)
  · subst hfuel
    exact ⟨ext, by simp [bind_run, getBackups, hg], hpost, Or.inr (hquiet hclean)⟩

/-- The DELETE request followed by a continuation that ends through `exit1`
on an error of the request. -/
theorem beforeCreate_deleteBackup_bind {β : Type} (deps : Deps)
    (cliConnection : CliConnection) (serviceInstance backupInstance : String)
    (f : Bool × error → M β)
    (hexit : ∀ b e tr, ∃ msg, f (b, some e) tr = (.exited 1 msg, tr))
    (hok : ∀ b, BeforeCreate deps (f (b, none))) :
    BeforeCreate deps (deleteBackup cliConnection serviceInstance backupInstance >>= f) := by
  intro tr
  have hrun := deleteBackup_run cliConnection serviceInstance backupInstance tr
  rcases hc : cliConnection.CliCommandWithoutTerminalOutput tr
    ["curl", "-X", "DELETE", backupURL serviceInstance backupInstance] with ⟨output, err⟩
  rw [hc] at hrun
  have hpost : NoPost [Call.curl ["curl", "-X", "DELETE",
      backupURL serviceInstance backupInstance] output err] := by
    intro c hc; rw [List.mem_singleton.mp hc]; simp [isPost]
  cases err with
  | some e =>
    obtain ⟨msg, hmsg⟩ := hexit false e
      (tr ++ [Call.curl ["curl", "-X", "DELETE", backupURL serviceInstance backupInstance]
        output (some e)])
    simp only [ne_eq, reduceCtorEq, not_false_eq_true, if_true] at hrun
    exact ⟨_, by simp [bind_run, hrun, hmsg], hpost,
      Or.inl ⟨msg, by simp [bind_run, hrun, hmsg]⟩⟩
  | none =>
    simp only [ne_eq, not_true_eq_false, if_false] at hrun
    obtain ⟨e2, h2, p2, q2⟩ := hok true
      (tr ++ [Call.curl ["curl", "-X", "DELETE", backupURL serviceInstance backupInstance]
        output none])
    refine ⟨[Call.curl ["curl", "-X", "DELETE", backupURL serviceInstance backupInstance]
        output none] ++ e2, by simp [bind_run, hrun, h2], noPost_append hpost p2, ?_⟩
    rcases q2 with ⟨msg, hmsg⟩ | q2
    · exact Or.inl ⟨msg, by simp [bind_run, hrun, hmsg]⟩
    · refine Or.inr (quiet_append ?_ q2)
      intro c hc; rw [List.mem_singleton.mp hc]; simp [failedDelete, failedFetch]

theorem rotateBackups_before (deps : Deps) (fuel : Nat) (cliConnection : CliConnection)
    (fc : FlagContext) (serviceName : String) (service : GetService_Model) :
    BeforeCreate deps (rotateBackups deps fuel cliConnection fc serviceName service) := by
  have htail : ∀ y : ServiceInstanceBackup, BeforeCreate deps (do
      let backupGuid ← metadataGUID y
      let _ ← getCurrentOrgString deps cliConnection
      let _ ← getCurrentSpaceString deps cliConnection
      let __discr ← deleteBackup cliConnection service.Guid backupGuid
      if ¬__discr.2 = none then do
          let msg ← errorString __discr.2
          exit1 deps
              ("Error deleting the backup " ++ boldText deps backupGuid ++ " of service " ++
                    serviceColor deps serviceName ++
                  ": " ++
                msg)
        else pure PUnit.unit) := by
    intro y
    apply beforeCreate_bind
    · cases hm : y.Metadata <;>
        exact beforeCreate_of_no_call deps _ (fun tr => by simp [metadataGUID, hm]; rfl)
    · intro backupGuid
      apply beforeCreate_bind (getCurrentOrgString_before deps cliConnection)
      intro _
      apply beforeCreate_bind (getCurrentSpaceString_before deps cliConnection)
      intro _
      apply beforeCreate_deleteBackup_bind
      · intro b e tr
        exact ⟨_, rfl⟩
      · intro b
        exact beforeCreate_of_no_call deps _ (fun tr => rfl)
  unfold rotateBackups
  apply beforeCreate_getBackups_bind
  · intro res e tr
    exact ⟨_, rfl⟩
  · intro res
    simp only [ne_eq, not_true_eq_false, if_false]
    apply beforeCreate_bind (beforeCreate_of_no_call deps _ (fun tr => rfl))
    intro _
    split
    · cases hold : getOldestBackup res with
      | ok b =>
        simp only []
        apply beforeCreate_bind (beforeCreate_of_no_call deps _ (fun tr => rfl))
        intro y
        exact htail y
      | error r =>
        simp only []
        apply beforeCreate_bind (beforeCreate_of_no_call deps _ (fun tr => rfl))
        intro y
        exact htail y
    · exact beforeCreate_of_no_call deps _ (fun tr => rfl)

theorem commandCreateBackup_aborts (deps : Deps) (fuel : Nat) (args : List String)
    (cliConnection : CliConnection) :
    AbortsOnFailure deps (commandCreateBackup deps fuel args cliConnection) := by
  have htail : ∀ service : GetService_Model, AbortsOnFailure deps (do
      let _ ← getCurrentOrgString deps cliConnection
      let _ ← getCurrentSpaceString deps cliConnection
      let (_, err2) ← createBackup deps cliConnection service.Guid
      if err2 ≠ none then do
        let msg ← errorString err2
        exit1 deps ("Error creating a backup for service \x27" ++
          serviceColor deps service.Name ++ "\x27: " ++ msg)) := by
    intro service
    apply abortsOnFailure_of_quiet
    exact createTail_adds deps cliConnection service _
      (fun _ _ => by simp [failedDelete, failedFetch])
      (fun _ _ => by simp [failedDelete, failedFetch])
      (fun _ _ => by simp [failedDelete, failedFetch])
  unfold commandCreateBackup
  apply abortsOnFailure_bind
  · exact beforeCreate_of_no_call deps _ (fun tr => by
      rw [parseArgumentsServiceNameAndRotationOption_run])
  · rintro ⟨fc, err⟩
    dsimp only
    cases err with
    | some e =>
      exact abortsOnFailure_of_quiet (addsOnly_of_no_call _ _ (fun tr => rfl))
    | none =>
      simp only [ne_eq, not_true_eq_false, if_false]
      apply abortsOnFailure_bind (beforeCreate_of_no_call deps _ (fun tr => rfl))
      intro _
      apply abortsOnFailure_bind (getService_before deps cliConnection _)
      intro service
      dsimp only
      split
      · apply abortsOnFailure_bind (rotateBackups_before deps fuel cliConnection fc _ service)
        intro _
        exact htail service
      · apply abortsOnFailure_bind (beforeCreate_of_no_call deps _ (fun tr => rfl))
        intro _
        exact htail service

/-- C6: in the create command, whenever a page request of the rotation
step's fetch failed or did not decode (the fetch returned an error), or the
rotation step's DELETE request returned an error, the command ends through
`exit1` with status 1 and the creation request is not among the calls of
the invocation. -/
theorem commandCreateBackup_aborts_on_rotation_failure (deps : Deps) (fuel : Nat)
    (args : List String) (cliConnection : CliConnection) (c : Call)
    (hc : c ∈ (commandCreateBackup deps fuel args cliConnection []).2)
    (hfail : failedDelete c = true ∨ failedFetch deps c = true) :
    (∃ msg, (commandCreateBackup deps fuel args cliConnection []).1 = .exited 1 msg) ∧
    (commandCreateBackup deps fuel args cliConnection []).1.status = some 1 ∧
    ∀ d ∈ (commandCreateBackup deps fuel args cliConnection []).2, isPost d = false := by
  obtain ⟨ext, htr, h⟩ := commandCreateBackup_aborts deps fuel args cliConnection []
  simp only [List.nil_append] at htr
  rw [htr] at hc
  rcases h with q | ⟨⟨msg, hmsg⟩, p⟩
  · have := q c hc
    rcases hfail with hf | hf
    · rw [this.1] at hf; exact absurd hf (by simp)
    · rw [this.2] at hf; exact absurd hf (by simp)
  · refine ⟨⟨msg, hmsg⟩, by rw [hmsg]; rfl, ?_⟩
    rw [htr]
    exact p

theorem parseArgumentsServiceNameAndRotationOption_ret (deps : Deps) (args : List String)
    (tr : Trace) (fc : FlagContext) (perr : error) (tr0 : Trace)
    (hparse : parseArgumentsServiceNameAndRotationOption deps args tr = (.ret (fc, perr), tr0)) :
    perr = none ∧ tr0 = tr := by
  have hp := parseArgumentsServiceNameAndRotationOption_run deps args tr
  rw [hparse] at hp
  have h1 := (Prod.mk.inj hp).1
  refine ⟨?_, (Prod.mk.inj hp).2⟩
  split at h1
  · exact Outcome.noConfusion h1
  · split at h1
    · exact Outcome.noConfusion h1
    · exact (Prod.mk.inj (Outcome.ret.inj h1)).2

/-- The statements of `commandCreateBackup` after the rotation block, on a
host whose org and space lookups succeed: the two lookups and then the
creation request. -/
theorem createTail_trace (deps : Deps) (cliConnection : CliConnection)
    (service : GetService_Model)
    (horg : ∀ tr, (cliConnection.GetCurrentOrg tr).2 = none)
    (hspace : ∀ tr, (cliConnection.GetCurrentSpace tr).2 = none) (tr : Trace) :
    ∃ o s out err, ((do
      let _ ← getCurrentOrgString deps cliConnection
      let _ ← getCurrentSpaceString deps cliConnection
      let (_, err2) ← createBackup deps cliConnection service.Guid
      if err2 ≠ none then do
        let msg ← errorString err2
        exit1 deps ("Error creating a backup for service \x27" ++
          serviceColor deps service.Name ++ "\x27: " ++ msg) : M Unit) tr).2 =
      tr ++ [Call.getCurrentOrg o none, Call.getCurrentSpace s none,
        Call.curl ["curl", "-X", "POST", backupsURL service.Guid] out err] := by
  rcases ho : cliConnection.GetCurrentOrg tr with ⟨o, oe⟩
  have hoe : oe = none := by have := horg tr; rw [ho] at this; exact this
  subst hoe
  rcases hs : cliConnection.GetCurrentSpace (tr ++ [Call.getCurrentOrg o none]) with ⟨s, se⟩
  have hse : se = none := by
    have := hspace (tr ++ [Call.getCurrentOrg o none]); rw [hs] at this; exact this
  subst hse
  have hct := createBackup_trace deps cliConnection service.Guid
    (tr ++ [Call.getCurrentOrg o none, Call.getCurrentSpace s none])
  rcases hcb : createBackup deps cliConnection service.Guid
    (tr ++ [Call.getCurrentOrg o none, Call.getCurrentSpace s none]) with ⟨outc, trc⟩
  rw [hcb] at hct
  rcases hp : cliConnection.CliCommandWithoutTerminalOutput
    (tr ++ [Call.getCurrentOrg o none, Call.getCurrentSpace s none])
    ["curl", "-X", "POST", backupsURL service.Guid] with ⟨out, err⟩
  rw [hp] at hct
  simp only at hct
  refine ⟨o, s, out, err, ?_⟩
  simp only [bind_run, getCurrentOrgString_run, ho, getCurrentSpaceString_run, hs,
    ne_eq, not_true_eq_false, if_false, List.append_assoc, List.singleton_append,
    List.cons_append, List.nil_append, hcb]
  cases outc with
  | ret a =>
    obtain ⟨b, err2⟩ := a
    cases err2 <;> simpa [pure_run, errorString, exit1, bind_run] using hct
  | exited st msg => simpa using hct
  | panicked r => simpa using hct
  | outOfFuel => simpa using hct

/-- Without a rotation bound the create command requests no page of backups
and issues no DELETE, whatever the host answers. -/
theorem commandCreateBackup_without_bound (deps : Deps) (fuel : Nat) (args : List String)
    (cliConnection : CliConnection)
    (hset : (deps.Parse [serviceNameFlag, maxBackupsRotationFlag] args).1.IsSet
      "max-backups-rotation" = false) :
    ∀ c ∈ (commandCreateBackup deps fuel args cliConnection []).2,
      isFetch c = false ∧ isDelete c = false := by
  rcases hP : deps.Parse [serviceNameFlag, maxBackupsRotationFlag] args with ⟨fc, err⟩
  rw [hP] at hset
  simp only at hset
  have hrun := parseArgumentsServiceNameAndRotationOption_run deps args []
  rw [hP] at hrun
  simp only at hrun
  cases hs : fc.IsSet "service-name" with
  | false =>
    have hcmd : (commandCreateBackup deps fuel args cliConnection []).2 = [] := by
      simp [commandCreateBackup, bind_run, hrun, hs]
    rw [hcmd]
    intro c hc
    cases hc
  | true =>
    cases err with
    | some e =>
      have hcmd : (commandCreateBackup deps fuel args cliConnection []).2 = [] := by
        simp [commandCreateBackup, bind_run, hrun, hs]
      rw [hcmd]
      intro c hc
      cases hc
    | none =>
      have hcmd : commandCreateBackup deps fuel args cliConnection [] = (do
          let service ← getService deps cliConnection (fc.String "service-name")
          let _ ← getCurrentOrgString deps cliConnection
          let _ ← getCurrentSpaceString deps cliConnection
          let (_, err2) ← createBackup deps cliConnection service.Guid
          if err2 ≠ none then do
            let msg ← errorString err2
            exit1 deps ("Error creating a backup for service \x27" ++
              serviceColor deps service.Name ++ "\x27: " ++ msg) : M Unit) [] := by
        simp only [commandCreateBackup, bind_run, hrun, hs, hset, pure_run, ne_eq,
          not_true_eq_false, if_false, Bool.false_eq_true, Bool.true_eq_false]
      have hadds : AddsOnly (fun c => isFetch c = false ∧ isDelete c = false) (do
          let service ← getService deps cliConnection (fc.String "service-name")
          let _ ← getCurrentOrgString deps cliConnection
          let _ ← getCurrentSpaceString deps cliConnection
          let (_, err2) ← createBackup deps cliConnection service.Guid
          if err2 ≠ none then do
            let msg ← errorString err2
            exit1 deps ("Error creating a backup for service \x27" ++
              serviceColor deps service.Name ++ "\x27: " ++ msg) : M Unit) := by
        apply addsOnly_bind
          (getService_adds deps cliConnection _ _ (fun _ _ _ => by simp [isFetch, isDelete]))
        intro service
        exact createTail_adds deps cliConnection service _
          (fun _ _ => by simp [isFetch, isDelete])
          (fun _ _ => by simp [isFetch, isDelete])
          (fun _ _ => by simp [isFetch, isDelete])
      obtain ⟨ext, hext, hall⟩ := hadds []
      rw [hcmd, hext]
      simpa using hall

/-- C5 (as amended): in the create command on a host whose org and space
lookups succeed.  Without a rotation bound no page of backups is requested
and no DELETE is issued; once the service is resolved, the calls that follow
are the two lookups and the creation request.  With a rotation bound m and a
fetched list of n backups: if n < m no DELETE is issued and the calls after
the fetch are the two lookups and the creation request; if n >= m and
`getOldestBackup` yields a backup with metadata, exactly one DELETE is
issued, for the GUID of that backup, before any creation request, and the
creation request follows when the DELETE succeeded. -/
theorem commandCreateBackup_rotation_threshold (deps : Deps) (fuel : Nat)
    (args : List String) (cliConnection : CliConnection)
    (horg : ∀ tr, (cliConnection.GetCurrentOrg tr).2 = none)
    (hspace : ∀ tr, (cliConnection.GetCurrentSpace tr).2 = none) :
    ((deps.Parse [serviceNameFlag, maxBackupsRotationFlag] args).1.IsSet
        "max-backups-rotation" = false →
      ∀ c ∈ (commandCreateBackup deps fuel args cliConnection []).2,
        isFetch c = false ∧ isDelete c = false) ∧
    ∀ (fc : FlagContext) (perr : error) (tr0 : Trace) (service : GetService_Model)
      (tr1 : Trace),
      parseArgumentsServiceNameAndRotationOption deps args [] = (.ret (fc, perr), tr0) →
      getService deps cliConnection (fc.String "service-name") tr0 = (.ret service, tr1) →
    (fc.IsSet "max-backups-rotation" = false →
      ∃ o s out err, (commandCreateBackup deps fuel args cliConnection []).2 =
        tr1 ++ [Call.getCurrentOrg o none, Call.getCurrentSpace s none,
          Call.curl ["curl", "-X", "POST", backupsURL service.Guid] out err]) ∧
    (fc.IsSet "max-backups-rotation" = true →
      ∀ res tr2, getBackups deps fuel cliConnection service.Guid tr1 = (.ret (res, none), tr2) →
        ((res.Resources.length : Int) < fc.Int "max-backups-rotation" →
          (∀ c ∈ (commandCreateBackup deps fuel args cliConnection []).2, isDelete c = false) ∧
          ∃ o s out err, (commandCreateBackup deps fuel args cliConnection []).2 =
            tr2 ++ [Call.getCurrentOrg o none, Call.getCurrentSpace s none,
              Call.curl ["curl", "-X", "POST", backupsURL service.Guid] out err]) ∧
        ((res.Resources.length : Int) ≥ fc.Int "max-backups-rotation" →
          ∀ oldest md, getOldestBackup res = .ok oldest → oldest.Metadata = some md →
            ∃ o s out err post, (commandCreateBackup deps fuel args cliConnection []).2 =
                tr2 ++ [Call.getCurrentOrg o none, Call.getCurrentSpace s none,
                  Call.curl ["curl", "-X", "DELETE", backupURL service.Guid md.GUID] out err] ++
                  post ∧
              (∀ c ∈ tr2, isDelete c = false ∧ isPost c = false) ∧
              (∀ c ∈ post, isDelete c = false) ∧
              (err = none → ∃ p ∈ post, isPost p = true) ∧
              (err ≠ none → post = []))) := by
  refine ⟨commandCreateBackup_without_bound deps fuel args cliConnection, ?_⟩
  intro fc perr tr0 service tr1 hparse hsvc
  obtain ⟨hperr, htr0⟩ :=
    parseArgumentsServiceNameAndRotationOption_ret deps args [] fc perr tr0 hparse
  subst hperr
  subst htr0
  have htr1 : tr1 = [Call.getService (fc.String "service-name")
      (cliConnection.GetService [] (fc.String "service-name")).1
      (cliConnection.GetService [] (fc.String "service-name")).2] := by
    have h1 := (getService_shape deps cliConnection (fc.String "service-name") []).1
    rw [hsvc] at h1
    simpa using h1
  constructor
  · intro hset
    have hcmd : commandCreateBackup deps fuel args cliConnection [] = (do
        let _ ← getCurrentOrgString deps cliConnection
        let _ ← getCurrentSpaceString deps cliConnection
        let (_, err2) ← createBackup deps cliConnection service.Guid
        if err2 ≠ none then do
          let msg ← errorString err2
          exit1 deps ("Error creating a backup for service \x27" ++
            serviceColor deps service.Name ++ "\x27: " ++ msg) : M Unit) tr1 := by
      simp only [commandCreateBackup, bind_run, hparse, hsvc, hset, pure_run, ne_eq,
        not_true_eq_false, if_false, Bool.false_eq_true]
    obtain ⟨o, s, out, err, ht⟩ := createTail_trace deps cliConnection service horg hspace tr1
    rw [hcmd, ht]
    exact ⟨o, s, out, err, rfl⟩
  · intro hset res tr2 hfetch
    obtain ⟨ext, htr, hfetchOnly, _⟩ :=
      getBackupsLoop_shape deps cliConnection fuel (backupsURL service.Guid) {} tr1
    have htr2 : tr2 = tr1 ++ ext := by
      have h2 : (getBackups deps fuel cliConnection service.Guid tr1).2 = tr1 ++ ext := htr
      rw [hfetch] at h2
      exact h2
    have hclean2 : ∀ c ∈ tr2, isDelete c = false ∧ isPost c = false := by
      intro c hc
      rw [htr2, htr1] at hc
      rcases List.mem_append.mp hc with hc | hc
      · rw [List.mem_singleton.mp hc]; simp [isDelete, isPost]
      · exact ⟨(isFetch_not_other c (hfetchOnly c hc)).2.1,
          (isFetch_not_other c (hfetchOnly c hc)).1⟩
    constructor
    · intro hlen
      have hlen1 : ¬ ((res.Resources.length : Int) ≥ fc.Int "max-backups-rotation") :=
        not_le.mpr hlen
      have hcmd : commandCreateBackup deps fuel args cliConnection [] = (do
          let _ ← getCurrentOrgString deps cliConnection
          let _ ← getCurrentSpaceString deps cliConnection
          let (_, err2) ← createBackup deps cliConnection service.Guid
          if err2 ≠ none then do
            let msg ← errorString err2
            exit1 deps ("Error creating a backup for service \x27" ++
              serviceColor deps service.Name ++ "\x27: " ++ msg) : M Unit) tr2 := by
        simp only [commandCreateBackup, bind_run, hparse, hsvc, hset, pure_run, ne_eq,
          not_true_eq_false, if_false, if_true, rotateBackups, hfetch, hlen1]
      obtain ⟨o, s, out, err, ht⟩ := createTail_trace deps cliConnection service horg hspace tr2
      rw [hcmd, ht]
      refine ⟨?_, o, s, out, err, rfl⟩
      intro c hc
      rcases List.mem_append.mp hc with hc | hc
      · exact (hclean2 c hc).1
      · simp only [List.mem_cons, List.mem_singleton, List.not_mem_nil, or_false] at hc
        rcases hc with hc | hc | hc <;> rw [hc] <;> simp [isDelete]
    · intro hlen oldest md hold hm
      rcases ho : cliConnection.GetCurrentOrg tr2 with ⟨o, oe⟩
      have hoe : oe = none := by have := horg tr2; rw [ho] at this; exact this
      subst hoe
      rcases hs : cliConnection.GetCurrentSpace (tr2 ++ [Call.getCurrentOrg o none]) with
        ⟨s, se⟩
      have hse : se = none := by
        have := hspace (tr2 ++ [Call.getCurrentOrg o none]); rw [hs] at this; exact this
      subst hse
      rcases hd : cliConnection.CliCommandWithoutTerminalOutput
        (tr2 ++ [Call.getCurrentOrg o none, Call.getCurrentSpace s none])
        ["curl", "-X", "DELETE", backupURL service.Guid md.GUID] with ⟨out, err⟩
      cases err with
      | some e =>
        refine ⟨o, s, out, some e, [], ?_, hclean2, by simp, by simp, by simp⟩
        simp [commandCreateBackup, bind_run, hparse, hsvc, hset, pure_run, rotateBackups,
          hfetch, hlen, hold, metadataGUID, hm, getCurrentOrgString_run, ho,
          getCurrentSpaceString_run, hs, deleteBackup_run, hd, errorString, exit1]
      | none =>
        have hcmd : commandCreateBackup deps fuel args cliConnection [] = (do
            let _ ← getCurrentOrgString deps cliConnection
            let _ ← getCurrentSpaceString deps cliConnection
            let (_, err2) ← createBackup deps cliConnection service.Guid
            if err2 ≠ none then do
              let msg ← errorString err2
              exit1 deps ("Error creating a backup for service \x27" ++
                serviceColor deps service.Name ++ "\x27: " ++ msg) : M Unit)
            (tr2 ++ [Call.getCurrentOrg o none, Call.getCurrentSpace s none,
              Call.curl ["curl", "-X", "DELETE", backupURL service.Guid md.GUID] out none]) := by
          simp only [commandCreateBackup, bind_run, hparse, hsvc, hset, pure_run, ne_eq,
            not_true_eq_false, if_false, if_true, rotateBackups, hfetch, hlen, hold,
            metadataGUID, hm, getCurrentOrgString_run, ho, getCurrentSpaceString_run, hs,
            deleteBackup_run, hd, List.append_assoc, List.singleton_append, List.cons_append,
            List.nil_append]
        obtain ⟨o2, s2, out2, err2, ht⟩ := createTail_trace deps cliConnection service horg
          hspace (tr2 ++ [Call.getCurrentOrg o none, Call.getCurrentSpace s none,
            Call.curl ["curl", "-X", "DELETE", backupURL service.Guid md.GUID] out none])
        refine ⟨o, s, out, none, [Call.getCurrentOrg o2 none, Call.getCurrentSpace s2 none,
          Call.curl ["curl", "-X", "POST", backupsURL service.Guid] out2 err2], ?_, hclean2,
          ?_, ?_, by simp⟩
        · rw [hcmd, ht]
        · intro c hc
          simp only [List.mem_cons, List.mem_singleton, List.not_mem_nil, or_false] at hc
          rcases hc with hc | hc | hc <;> rw [hc] <;> simp [isDelete]
        · intro _
          exact ⟨Call.curl ["curl", "-X", "POST", backupsURL service.Guid] out2 err2,
            by simp, by simp [isPost]⟩

/-- The rotation theorem with three backups and the bound 3: one DELETE, for
`b2`, the oldest, and the creation request after it. -/
theorem commandCreateBackup_rotation_threshold_witness :
    (∀ tr, ((scriptedCli curlThreeBackups none none).GetCurrentOrg tr).2 = none) ∧
    (∀ tr, ((scriptedCli curlThreeBackups none none).GetCurrentSpace tr).2 = none) ∧
    getOldestBackup fullPage = .ok b2 ∧
    ∃ o s out err post,
      (commandCreateBackup demoDeps 1 ["create-mariadb-backup", "-s", "db", "-m", "3"]
          (scriptedCli curlThreeBackups none none) []).2 =
        [Call.getService "db" demoService none,
          Call.curl ["curl", "/custom/service_instances/g1/backups"] fullLines none] ++
        [Call.getCurrentOrg o none, Call.getCurrentSpace s none,
          Call.curl ["curl", "-X", "DELETE", "/custom/service_instances/g1/backups/b2"]
            out err] ++ post ∧
      (∀ c ∈ post, isDelete c = false) ∧
      (err = none → ∃ p ∈ post, isPost p = true) :=
  ⟨fun _ => rfl, fun _ => rfl, rfl,
    have h := (((commandCreateBackup_rotation_threshold demoDeps 1
      ["create-mariadb-backup", "-s", "db", "-m", "3"] (scriptedCli curlThreeBackups none none)
      (fun _ => rfl) (fun _ => rfl)).2
      (demoParse [serviceNameFlag, maxBackupsRotationFlag]
        ["create-mariadb-backup", "-s", "db", "-m", "3"]).1 none [] demoService
      [Call.getService "db" demoService none] rfl rfl).2 rfl
      fullPage
      [Call.getService "db" demoService none,
        Call.curl ["curl", "/custom/service_instances/g1/backups"] fullLines none] rfl).2
      (by decide) b2 { GUID := "b2", CreatedAt := jan1 } rfl rfl
    match h with
    | ⟨o, s, out, err, post, h1, _, h3, h4, _⟩ => ⟨o, s, out, err, post, h1, h3, h4⟩⟩

/-- C5, as stated, fails: three backups are fetched and the rotation bound
is 3, so n >= m, yet the command issues no DELETE request: the lookup of the
current org, made before the deletion, fails and the command ends through
`exit1`. -/
theorem commandCreateBackup_org_lookup_failure_skips_delete :
    (getBackups demoDeps 1 (scriptedCli curlThreeBackups (some "Error getting org") none) "g1"
      [Call.getService "db" demoService none]).1 = .ret (fullPage, none) ∧
    (fullPage.Resources.length : Int) ≥
      (demoParse [serviceNameFlag, maxBackupsRotationFlag]
        ["create-mariadb-backup", "-s", "db", "-m", "3"]).1.Int "max-backups-rotation" ∧
    commandCreateBackup demoDeps 1 ["create-mariadb-backup", "-s", "db", "-m", "3"]
        (scriptedCli curlThreeBackups (some "Error getting org") none) [] =
      (.exited 1 "FAILED\nError getting the current organization.\n\n",
        [Call.getService "db" demoService none,
          Call.curl ["curl", "/custom/service_instances/g1/backups"] fullLines none,
          Call.getCurrentOrg { Name := "org" } (some "Error getting org")]) ∧
    ∀ c ∈ (commandCreateBackup demoDeps 1 ["create-mariadb-backup", "-s", "db", "-m", "3"]
        (scriptedCli curlThreeBackups (some "Error getting org") none) []).2,
      isDelete c = false := by
  refine ⟨rfl, by decide, rfl, ?_⟩
  decide

/-- The abort theorem on a host where the rotation DELETE fails. -/
theorem commandCreateBackup_aborts_on_rotation_failure_witness :
    Call.curl ["curl", "-X", "DELETE", "/custom/service_instances/g1/backups/b2"] []
        (some "Error performing request") ∈
      (commandCreateBackup demoDeps 1 ["create-mariadb-backup", "-s", "db", "-m", "3"]
        (scriptedCli curlDeleteFails none none) []).2 ∧
    (∃ msg, (commandCreateBackup demoDeps 1 ["create-mariadb-backup", "-s", "db", "-m", "3"]
        (scriptedCli curlDeleteFails none none) []).1 = .exited 1 msg) ∧
    (commandCreateBackup demoDeps 1 ["create-mariadb-backup", "-s", "db", "-m", "3"]
        (scriptedCli curlDeleteFails none none) []).1.status = some 1 ∧
    ∀ d ∈ (commandCreateBackup demoDeps 1 ["create-mariadb-backup", "-s", "db", "-m", "3"]
        (scriptedCli curlDeleteFails none none) []).2, isPost d = false :=
  ⟨by decide,
    commandCreateBackup_aborts_on_rotation_failure demoDeps 1
      ["create-mariadb-backup", "-s", "db", "-m", "3"] (scriptedCli curlDeleteFails none none)
      (Call.curl ["curl", "-X", "DELETE", "/custom/service_instances/g1/backups/b2"] []
        (some "Error performing request")) (by decide) (Or.inl rfl)⟩

/-- C10 (the code at the failing input): with the rotation bound 0 and no
existing backup, the fetched list is empty, its length 0 is >= 0, and
`getOldestBackup` returns the empty record, whose metadata is absent; reading
`oldestBackup.Metadata.GUID` panics and the command ends with status 2
before any DELETE or creation request. -/
theorem commandCreateBackup_panics_on_no_backups_with_bound_zero :
    (getBackups demoDeps 1 (scriptedCli curlNoBackups none none) "g1"
      [Call.getService "db" demoService none]).1 = .ret (noBackupsPage, none) ∧
    (∀ b ∈ noBackupsPage.Resources, b.Metadata ≠ none) ∧
    (noBackupsPage.Resources.length : Int) ≥
      (demoParse [serviceNameFlag, maxBackupsRotationFlag]
        ["create-mariadb-backup", "-s", "db", "-m", "0"]).1.Int "max-backups-rotation" ∧
    (∃ oldest, getOldestBackup noBackupsPage = .ok oldest ∧ oldest.Metadata = none) ∧
    commandCreateBackup demoDeps 1 ["create-mariadb-backup", "-s", "db", "-m", "0"]
        (scriptedCli curlNoBackups none none) [] =
      (.panicked nilDeref,
        [Call.getService "db" demoService none,
          Call.curl ["curl", "/custom/service_instances/g1/backups"] noBackupsLines none]) ∧
    (commandCreateBackup demoDeps 1 ["create-mariadb-backup", "-s", "db", "-m", "0"]
        (scriptedCli curlNoBackups none none) []).1.status = some 2 :=
  ⟨rfl, by decide, by decide, ⟨{}, rfl, rfl⟩, rfl, rfl⟩

end CfMariadbBackup
